import Mathlib

/-!
# ods-servers: the generic repository (`internal/repo`)

A shallow embedding of the query compiler of `internal/repo/helpers.go` and of the
repository methods of `internal/repo/methods.go`, followed by theorems about them.

Modelling conventions

* Go `string` is `String`; `fmt.Sprintf` with `%s`/`%d` verbs is string concatenation, with
  `itoa` rendering the decimal form of `%d`.
* Go `any` is the type `Value` of dynamic values. `Value.nil` is the nil interface; a type
  assertion `v.(T)` is a match on the constructor for `T`.
* The running argument index is a Go `int` that starts at `1` and is only ever advanced by
  lengths of in-memory slices; it is modelled as a `Nat`.
* A `for ... range` loop that appends to local slices is a recursive function that carries
  those locals as accumulators.
* Library functions (`strings.Join`, `strings.ToUpper`, `pq.QuoteIdentifier`) are modelled
  from their documented behaviour.
-/

namespace Repo

/-! ## Dynamic values -/

/-- Dynamic values held by a Go `any`. Each constructor is one dynamic type; `nil` is the nil
interface value. -/
inductive Value where
  | nil
  | bool (b : Bool)
  | int (n : Int)
  | str (s : String)
  | bytes (s : String)
  | time (t : Int)
  | ints (ns : List Int)
  | slice (vs : List Value)
  | map (kvs : List (String × Value))
  | maps (ms : List (List (String × Value)))

/-- A Go `map[string]any`, as an association list. -/
abbrev GoMap := List (String × Value)

/-- Map indexing `m[key]`: the stored value, or the nil interface when the key is absent. -/
def mapIndex : GoMap → String → Value
  | [], _ => Value.nil
  | (k, v) :: rest, key => if k = key then v else mapIndex rest key

/-- The type assertion `v.(string)` with the comma-ok result dropped: the zero value `""` when
`v` is not a string. -/
def Value.asString : Value → String
  | Value.str s => s
  | _ => ""

/-! ## Library functions -/

/-- Decimal digit `d` as a character. -/
def digitChar (d : Nat) : Char := Char.ofNat (48 + d)

/-- Digits of `n`, most significant first, pushed in front of `acc`. The first argument bounds
the number of divisions; `n` itself is always enough. -/
def itoaAux : Nat → Nat → List Char → List Char
  | 0, n, acc => digitChar (n % 10) :: acc
  | fuel + 1, n, acc =>
    if n < 10 then digitChar n :: acc
    else itoaAux fuel (n / 10) (digitChar (n % 10) :: acc)

/-- The verb `%d` of `fmt.Sprintf` on a non-negative integer. -/
def itoa (n : Nat) : String := String.mk (itoaAux n n [])

/-- Go `strings.Join(elems, sep)`. -/
def Join : List String → String → String
  | [], _ => ""
  | [a], _ => a
  | a :: b :: rest, sep => a ++ sep ++ Join (b :: rest) sep

/-- Upper case of one character, as far as `strings.ToUpper` can produce an ASCII letter:
`a`..`z`, and the two non-ASCII characters whose upper case is ASCII (dotless i and long s).
Every other character is left alone, which is exact for comparisons against ASCII keywords. -/
def upperChar (c : Char) : Char :=
  if c.val = 0x131 then 'I'
  else if c.val = 0x17F then 'S'
  else c.toUpper

/-- Go `strings.ToUpper`, see `upperChar`. -/
def ToUpper (s : String) : String := String.mk (s.data.map upperChar)

/-- Replaces every `"` by `""`. -/
def doubleQuotes : List Char → List Char
  | [] => []
  | c :: cs => if c = '"' then '"' :: '"' :: doubleQuotes cs else c :: doubleQuotes cs

/-- The function `QuoteIdentifier` of `lib/pq`: the name is cut at its first NUL character,
embedded double quotes are doubled, and the result is wrapped in double quotes. -/
def QuoteIdentifier (name : String) : String :=
  String.mk ('"' :: doubleQuotes (name.data.takeWhile (fun c => c != Char.ofNat 0)) ++ ['"'])

/-! ## Filters (`repo.go`, `helpers.go`) -/

/-- The struct `Filter` of `repo.go`. -/
structure Filter where
  Field : String
  Operator : String
  Value : Value

/-- The struct `QueryOptions` of `repo.go`. -/
structure QueryOptions where
  OrderBy : String
  Limit : Int
  Offset : Int

/-- The constructor `NewFilter`. -/
def NewFilter (field operator : String) (value : Value) : Filter :=
  { Field := field, Operator := operator, Value := value }

/-- The constructor `NewORFilter`. -/
def NewORFilter (conditions : List Filter) : Filter :=
  { Field := "custom_or"
    Operator := "OR"
    Value := Value.map [("conditions", Value.maps (conditions.map fun condition =>
      [("field", Value.str condition.Field),
       ("operator", Value.str condition.Operator),
       ("value", condition.Value)]))] }

/-- The constructor `NewRawFilter`. -/
def NewRawFilter (sql : String) : Filter :=
  { Field := "raw_condition", Operator := "RAW", Value := Value.str sql }

/-- The loop over the sub-conditions of an OR filter in `buildCondition`, with its locals
`orParts`, `orArgs` and `currentArgIndex`. -/
def orLoop : List GoMap → List String → List Value → Nat → List String × List Value
  | [], orParts, orArgs, _ => (orParts, orArgs)
  | condition :: rest, orParts, orArgs, currentArgIndex =>
    let fieldName := (mapIndex condition "field").asString
    let operator := (mapIndex condition "operator").asString
    let value := mapIndex condition "value"
    let quotedField := QuoteIdentifier fieldName
    orLoop rest
      (orParts ++ [quotedField ++ " " ++ operator ++ " $" ++ itoa currentArgIndex])
      (orArgs ++ [value])
      (currentArgIndex + 1)

/-- The placeholder loop of the `IN` and `NOT IN` cases: `placeholders[i] = "$" + (argIndex+i)`
for `i` from `i₀` up to the length of the value list. -/
def inPlaceholders : List Value → Nat → Nat → List String
  | [], _, _ => []
  | _ :: rest, argIndex, i => ("$" ++ itoa (argIndex + i)) :: inPlaceholders rest argIndex (i + 1)

/-- The statements after the `switch` of `buildCondition`, reached when a case does not return. -/
def fallbackCondition (field : String) (filter : Filter) (argIndex : Nat) : String × Value :=
  (field ++ " = $" ++ itoa argIndex, filter.Value)

/-- The method `buildCondition` of `helpers.go`. -/
def buildCondition (filter : Filter) (argIndex : Nat) : String × Value :=
  let field := QuoteIdentifier filter.Field
  let op := ToUpper filter.Operator
  if op = "OR" then
    match filter.Value with
    | Value.map orData =>
      match mapIndex orData "conditions" with
      | Value.maps conditions =>
        let (orParts, orArgs) := orLoop conditions [] [] argIndex
        ("(" ++ Join orParts " OR " ++ ")", Value.slice orArgs)
      | _ => fallbackCondition field filter argIndex
    | _ => fallbackCondition field filter argIndex
  else if op = "RAW" then
    match filter.Value with
    | Value.str rawSQL => (rawSQL, Value.nil)
    | _ => fallbackCondition field filter argIndex
  else if op = "IN" then
    match filter.Value with
    | Value.slice values =>
      (field ++ " IN (" ++ Join (inPlaceholders values argIndex 0) ", " ++ ")", Value.slice values)
    | _ => fallbackCondition field filter argIndex
  else if op = "NOT IN" then
    match filter.Value with
    | Value.slice values =>
      (field ++ " NOT IN (" ++ Join (inPlaceholders values argIndex 0) ", " ++ ")",
        Value.slice values)
    | _ => fallbackCondition field filter argIndex
  else if op = "LIKE" ∨ op = "ILIKE" then
    (field ++ " " ++ filter.Operator ++ " $" ++ itoa argIndex, filter.Value)
  else
    (field ++ " " ++ filter.Operator ++ " $" ++ itoa argIndex, filter.Value)

/-- The loop of `buildWhereClause` over the filters, with its locals `conditions`, `args` and
`argIndex`; the final value of `argIndex` is returned with the two slices. -/
def whereLoop : List Filter → List String → List Value → Nat → List String × List Value × Nat
  | [], conditions, args, argIndex => (conditions, args, argIndex)
  | filter :: rest, conditions, args, argIndex =>
    let (condition, arg) := buildCondition filter argIndex
    let conditions := conditions ++ [condition]
    match arg with
    | Value.nil => whereLoop rest conditions args argIndex
    | Value.slice v => whereLoop rest conditions (args ++ v) (argIndex + v.length)
    | v => whereLoop rest conditions (args ++ [v]) (argIndex + 1)

/-- The method `buildWhereClause` of `helpers.go`. -/
def buildWhereClause (filters : List Filter) : String × List Value :=
  if filters.length = 0 then ("", [])
  else
    let (conditions, args, _) := whereLoop filters [] [] 1
    (" WHERE " ++ Join conditions " AND ", args)

/-! ## The entity mapper (`helpers.go`) -/

/-- The `reflect.Value` of a struct field, as far as `getFieldValue` inspects it: a nil
pointer, a pointer to a value, a `time.Time`, a slice, map or struct other than `time.Time`
(carried with the outcome of `json.Marshal` on it), or a value of any other kind (carried with
its `Interface()`). -/
inductive RValue where
  | nilPtr
  | ptr (elem : RValue)
  | time (t : Int)
  | composite (marshal : Except String String)
  | plain (v : Value)

/-- One field of the entity struct: `IsExported()`, the value of the key `db` of its tag
(empty when the tag has none), and its value. -/
structure StructField where
  IsExported : Bool
  db : String
  value : RValue

/-- An entity: the fields of its struct type, in declaration order. -/
abbrev Entity := List StructField

/-- The test `value.Kind() == reflect.Ptr && value.IsNil()`. -/
def RValue.isNilPtr : RValue → Bool
  | RValue.nilPtr => true
  | _ => false

/-- The method `getFieldValue` of `helpers.go`. -/
def getFieldValue : RValue → Value
  | RValue.nilPtr => Value.nil
  | RValue.ptr elem => getFieldValue elem
  | RValue.time t => Value.time t
  | RValue.composite (Except.error _) => Value.nil
  | RValue.composite (Except.ok jsonData) => Value.bytes jsonData
  | RValue.plain v => v

/-- The loop of `buildInsertData` with its locals `fields`, `values` and `placeholders`. -/
def insertLoop : List StructField → List String → List Value → List String →
    List String × List Value × List String
  | [], fields, values, placeholders => (fields, values, placeholders)
  | field :: rest, fields, values, placeholders =>
    if !field.IsExported then insertLoop rest fields values placeholders
    else
      let fieldName := field.db
      if fieldName = "" ∨ fieldName = "-" then insertLoop rest fields values placeholders
      else
        let fieldValue := getFieldValue field.value
        if field.value.isNilPtr then insertLoop rest fields values placeholders
        else
          let values := values ++ [fieldValue]
          insertLoop rest (fields ++ [QuoteIdentifier fieldName]) values
            (placeholders ++ ["$" ++ itoa values.length])

/-- The method `buildInsertData` of `helpers.go`. -/
def buildInsertData (entity : Entity) : List String × List Value × List String :=
  insertLoop entity [] [] []

/-- The loop of `buildUpdateData` with its locals `fields` and `values`. -/
def updateLoop : List StructField → List String → List Value → List String × List Value
  | [], fields, values => (fields, values)
  | field :: rest, fields, values =>
    if !field.IsExported then updateLoop rest fields values
    else
      let fieldName := field.db
      if fieldName = "" ∨ fieldName = "-" ∨ fieldName = "id" then updateLoop rest fields values
      else
        let fieldValue := getFieldValue field.value
        if field.value.isNilPtr then updateLoop rest fields values
        else
          updateLoop rest
            (fields ++ [QuoteIdentifier fieldName ++ " = $" ++ itoa (values.length + 1)])
            (values ++ [fieldValue])

/-- The method `buildUpdateData` of `helpers.go`. -/
def buildUpdateData (entity : Entity) : List String × List Value :=
  updateLoop entity [] []

/-! ## The store and the repository methods (`repo.go`, `methods.go`) -/

/-- Go `error` values seen by the repository: the sentinel `sql.ErrNoRows`, any other error
reported by the store, and the results of `fmt.Errorf` without and with a wrapped error. -/
inductive GoError where
  | ErrNoRows
  | store (msg : String)
  | errorf (msg : String)
  | wrap (msg : String) (err : GoError)
  | wrap2 (msg : String) (err₁ err₂ : GoError)
  deriving DecidableEq

/-- The store handle `*sqlx.DB` over store states `σ`: each call takes the statement text and
its arguments, and returns its outcome with the next store state. `ExecContext` yields the
outcome of `RowsAffected()`, `QueryRowScan` the scanned count. -/
structure DB (σ : Type) where
  GetContext : String → List Value → σ → Except GoError Entity × σ
  SelectContext : String → List Value → σ → Except GoError (List Entity) × σ
  ExecContext : String → List Value → σ → Except GoError (Except GoError Int) × σ
  QueryRowScan : String → List Value → σ → Except GoError Int × σ

/-- The struct `GenericRepository` of `repo.go`, without its store handle, which the methods
take as a separate argument. -/
structure GenericRepository where
  tableName : String

/-- The method `Update` of `methods.go`. -/
def Update {σ : Type} (db : DB σ) (r : GenericRepository) (id : String) (entity : Entity)
    (s : σ) : Except GoError Entity × σ :=
  let (fields, values) := buildUpdateData entity
  if fields.length = 0 then (Except.error (GoError.errorf "no fields to update"), s)
  else
    let setClause := Join fields ", "
    let query := "UPDATE " ++ QuoteIdentifier r.tableName ++ " SET " ++ setClause ++
      " WHERE id = $" ++ itoa (values.length + 1) ++ " RETURNING *"
    let values := values ++ [Value.str id]
    match db.GetContext query values s with
    | (Except.ok updatedEntity, s') => (Except.ok updatedEntity, s')
    | (Except.error err, s') =>
      if err = GoError.ErrNoRows then
        (Except.error (GoError.errorf ("entity with id " ++ id ++ " not found")), s')
      else (Except.error (GoError.wrap "failed to update entity" err), s')

/-- The method `Upsert` of `methods.go`. -/
def Upsert {σ : Type} (db : DB σ) (r : GenericRepository) (entity : Entity)
    (conflictColumns : List String) (s : σ) : Except GoError Entity × σ :=
  let (fields, values, placeholders) := buildInsertData entity
  let (updateFields, _) := buildUpdateData entity
  let conflictColumns := if conflictColumns.length = 0 then ["id"] else conflictColumns
  let conflictClause := Join conflictColumns ", "
  let updateClause := Join updateFields ", "
  let query := "INSERT INTO " ++ QuoteIdentifier r.tableName ++ " (" ++ Join fields ", " ++
    ") VALUES (" ++ Join placeholders ", " ++ ") ON CONFLICT (" ++ conflictClause ++
    ") DO UPDATE SET " ++ updateClause ++ " RETURNING *"
  match db.GetContext query values s with
  | (Except.ok upsertedEntity, s') => (Except.ok upsertedEntity, s')
  | (Except.error err, s') => (Except.error (GoError.wrap "failed to upsert entity" err), s')

/-- A store that records every call (statement and arguments) in its state and answers each
with `sql.ErrNoRows`. -/
def recorder : DB (List (String × List Value)) where
  GetContext := fun q a log => (Except.error GoError.ErrNoRows, log ++ [(q, a)])
  SelectContext := fun q a log => (Except.error GoError.ErrNoRows, log ++ [(q, a)])
  ExecContext := fun q a log => (Except.error GoError.ErrNoRows, log ++ [(q, a)])
  QueryRowScan := fun q a log => (Except.error GoError.ErrNoRows, log ++ [(q, a)])

/-! ## Reading a compiled fragment back -/

/-- Number of arguments the loop of `buildWhereClause` takes from the value returned by
`buildCondition`: none for nil, the length for a `[]any`, one otherwise. -/
def arity : Value → Nat
  | Value.nil => 0
  | Value.slice v => v.length
  | _ => 1

/-- The arguments the loop of `buildWhereClause` takes from the value returned by
`buildCondition`. -/
def argsOf : Value → List Value
  | Value.nil => []
  | Value.slice v => v
  | v => [v]

/-- The conditions of a filter list compiled left to right, the first at index `k` and each
later one at the index reached by the arities of the filters before it. -/
def compileAll : List Filter → Nat → List String
  | [], _ => []
  | f :: rest, k => (buildCondition f k).1 :: compileAll rest (k + arity (buildCondition f k).2)

/-- The arguments of a filter list compiled left to right from index `k`. -/
def argsAll : List Filter → Nat → List Value
  | [], _ => []
  | f :: rest, k => argsOf (buildCondition f k).2 ++ argsAll rest (k + arity (buildCondition f k).2)

/-- State of the placeholder reader: outside a placeholder, just after a `$`, or inside the
digits of a placeholder whose value so far is `n`. -/
inductive ScanState where
  | idle
  | dollar
  | num (n : Nat)

/-- Value of a decimal digit character. -/
def digitVal (c : Char) : Nat := c.toNat - 48

/-- The placeholder numbers of a text, left to right, read from a given state: a placeholder
is a `$` followed by its longest run of decimal digits, at least one. -/
def scanFrom : ScanState → List Char → List Nat
  | ScanState.num n, [] => [n]
  | ScanState.idle, [] => []
  | ScanState.dollar, [] => []
  | ScanState.idle, c :: cs =>
    if c = '$' then scanFrom ScanState.dollar cs else scanFrom ScanState.idle cs
  | ScanState.dollar, c :: cs =>
    if c.isDigit then scanFrom (ScanState.num (digitVal c)) cs
    else if c = '$' then scanFrom ScanState.dollar cs
    else scanFrom ScanState.idle cs
  | ScanState.num n, c :: cs =>
    if c.isDigit then scanFrom (ScanState.num (10 * n + digitVal c)) cs
    else n :: (if c = '$' then scanFrom ScanState.dollar cs else scanFrom ScanState.idle cs)

/-- The positional placeholders `$n` of a statement text, left to right. -/
def placeholders (w : String) : List Nat := scanFrom ScanState.idle w.data

/-- The text holds no `$`. -/
def noDollar (s : String) : Bool := s.data.all fun c => c != '$'

/-- A sub-condition map of an OR group whose field and operator hold no `$`. -/
def subRegular (condition : GoMap) : Bool :=
  noDollar (mapIndex condition "field").asString &&
    noDollar (mapIndex condition "operator").asString

/-- The value is neither the nil interface nor a `[]any`: the loop of `buildWhereClause`
takes it as one argument. -/
def singleValue : Value → Bool
  | Value.nil => false
  | Value.slice _ => false
  | _ => true

/-- Regular filters, following the cases of `buildCondition`. An OR group of the structured
shape: no `$` in the field and operator of its sub-conditions. A RAW filter over a string: no
`$` in the string. An `IN` or `NOT IN` filter over a `[]any`: no `$` in the field. Every other
filter is compiled to a condition with a single placeholder: no `$` in the field, a value that
is neither nil nor a `[]any`, and, where the operator text is written into the condition
(operators other than `OR`, `RAW`, `IN`, `NOT IN`), no `$` in the operator. -/
def regular (f : Filter) : Bool :=
  let op := ToUpper f.Operator
  let single := noDollar f.Field && singleValue f.Value
  if op = "OR" then
    match f.Value with
    | Value.map orData =>
      match mapIndex orData "conditions" with
      | Value.maps conditions => conditions.all subRegular
      | _ => single
    | _ => single
  else if op = "RAW" then
    match f.Value with
    | Value.str rawSQL => noDollar rawSQL
    | _ => single
  else if op = "IN" ∨ op = "NOT IN" then
    match f.Value with
    | Value.slice _ => noDollar f.Field
    | _ => single
  else single && noDollar f.Operator

/-- The structured shape of an OR filter value: a map whose key `conditions` holds a list of
sub-condition maps. -/
def orShape : Value → Option (List GoMap)
  | Value.map orData =>
    match mapIndex orData "conditions" with
    | Value.maps conditions => some conditions
    | _ => none
  | _ => none

/-- The text does not begin with a decimal digit. -/
def noLead : List Char → Bool
  | [] => true
  | c :: _ => !c.isDigit

/-- Number read from a run of decimal digits, continuing from `n`. -/
def readDigits (n : Nat) (ds : List Char) : Nat := ds.foldl (fun a c => 10 * a + digitVal c) n

/-- The text `s` holds exactly the placeholders `ns`: read in front of any text that does not
begin with a digit, it yields `ns` followed by the placeholders of that text. -/
def Frag (s : List Char) (ns : List Nat) : Prop :=
  ∀ b, noLead b = true → scanFrom ScanState.idle (s ++ b) = ns ++ scanFrom ScanState.idle b

/-- What `strings.Join` puts after the first element: each further element behind a
separator. -/
def joinTail : List String → String → String
  | [], _ => ""
  | b :: rest, sep => sep ++ b ++ joinTail rest sep

/-- The fields that `buildUpdateData` emits: exported, with a column name other than empty,
`-` and `id`, and not holding a nil pointer. -/
def updatable (entity : Entity) : List StructField :=
  entity.filter fun f =>
    f.IsExported && (f.db != "" && f.db != "-" && f.db != "id") && !f.value.isNilPtr

/-! ## The SELECT builder and the remaining repository methods (`helpers.go`, `methods.go`) -/

/-- The verb `%d` of `fmt.Sprintf` on an integer. -/
def fmtInt : Int → String
  | Int.ofNat n => itoa n
  | Int.negSucc n => "-" ++ itoa (n + 1)

/-- The method `buildSelectQuery` of `helpers.go`; `none` is the nil options pointer. -/
def buildSelectQuery (r : GenericRepository) (filters : List Filter)
    (opts : Option QueryOptions) : String × List Value :=
  let query := "SELECT * FROM " ++ QuoteIdentifier r.tableName
  let (whereClause, args) := buildWhereClause filters
  let query := query ++ whereClause
  match opts with
  | none => (query, args)
  | some opts =>
    let query := if opts.OrderBy ≠ "" then query ++ " ORDER BY " ++ QuoteIdentifier opts.OrderBy
      else query
    let query := if opts.Limit > 0 then query ++ " LIMIT " ++ fmtInt opts.Limit else query
    let query := if opts.Offset > 0 then query ++ " OFFSET " ++ fmtInt opts.Offset else query
    (query, args)

/-- The method `Find` of `methods.go`. -/
def Find {σ : Type} (db : DB σ) (r : GenericRepository) (filters : List Filter)
    (opts : Option QueryOptions) (s : σ) : Except GoError (List Entity) × σ :=
  let (query, args) := buildSelectQuery r filters opts
  match db.SelectContext query args s with
  | (Except.error err, s') => (Except.error (GoError.wrap "failed to execute query" err), s')
  | (Except.ok entities, s') => (Except.ok entities, s')

/-- The method `Count` of `methods.go`. -/
def Count {σ : Type} (db : DB σ) (r : GenericRepository) (filters : List Filter) (s : σ) :
    Except GoError Int × σ :=
  let (whereClause, args) := buildWhereClause filters
  let query := "SELECT COUNT(*) FROM " ++ QuoteIdentifier r.tableName ++ whereClause
  match db.QueryRowScan query args s with
  | (Except.error err, s') => (Except.error (GoError.wrap "failed to count entities" err), s')
  | (Except.ok count, s') => (Except.ok count, s')

/-- The method `Delete` of `methods.go`; the result `none` is the nil error. -/
def Delete {σ : Type} (db : DB σ) (r : GenericRepository) (id : String) (s : σ) :
    Option GoError × σ :=
  let query := "DELETE FROM " ++ QuoteIdentifier r.tableName ++ " WHERE id = $1"
  match db.ExecContext query [Value.str id] s with
  | (Except.error err, s') => (some (GoError.wrap "failed to delete entity" err), s')
  | (Except.ok result, s') =>
    match result with
    | Except.error err => (some (GoError.wrap "failed to get affected rows" err), s')
    | Except.ok rowsAffected =>
      if rowsAffected = 0 then
        (some (GoError.errorf ("entity with id " ++ id ++ " not found")), s')
      else (none, s')

/-- Result of an arithmetic operation on Go `int` values (64 bits, two's complement): the
mathematical result wrapped into the range from `-2^63` to `2^63 - 1`. -/
def wrapInt (x : Int) : Int := (x + 2 ^ 63) % 2 ^ 64 - 2 ^ 63

/-- The method `FindWithPagination` of `methods.go`. -/
def FindWithPagination {σ : Type} (db : DB σ) (r : GenericRepository) (filters : List Filter)
    (page pageSize : Int) (orderBy : String) (s : σ) :
    Except GoError (List Entity × Int) × σ :=
  let page := if page < 1 then 1 else page
  let pageSize := if pageSize < 1 then 10 else pageSize
  match Count db r filters s with
  | (Except.error err, s') => (Except.error (GoError.wrap "failed to get total count" err), s')
  | (Except.ok totalCount, s') =>
    let opts : QueryOptions :=
      { OrderBy := orderBy
        Limit := pageSize
        Offset := wrapInt (wrapInt (page - 1) * pageSize) }
    match Find db r filters (some opts) s' with
    | (Except.error err, s'') =>
      (Except.error (GoError.wrap "failed to get paginated results" err), s'')
    | (Except.ok entities, s'') => (Except.ok (entities, totalCount), s'')

/-- A store that records every call (statement and arguments) in its state and answers each
with success: an empty row, no rows, one row affected, a count of zero. -/
def recorderOk : DB (List (String × List Value)) where
  GetContext := fun q a log => (Except.ok [], log ++ [(q, a)])
  SelectContext := fun q a log => (Except.ok [], log ++ [(q, a)])
  ExecContext := fun q a log => (Except.ok (Except.ok 1), log ++ [(q, a)])
  QueryRowScan := fun q a log => (Except.ok 0, log ++ [(q, a)])

/-- The transaction part of the store handle: `BeginTxx` opens a transaction handle of type
`τ`, on which `Rollback` and `Commit` are called; an error result `none` is nil. -/
structure TxDB (σ τ : Type) where
  BeginTxx : σ → Except GoError τ × σ
  Rollback : τ → σ → Option GoError × σ
  Commit : τ → σ → Option GoError × σ

/-- The method `Transaction` of `methods.go`, with the callback `fn` acting on the store
state. -/
def Transaction {σ τ : Type} (db : TxDB σ τ) (fn : τ → σ → Option GoError × σ) (s : σ) :
    Option GoError × σ :=
  match db.BeginTxx s with
  | (Except.error err, s₁) => (some (GoError.wrap "failed to begin transaction" err), s₁)
  | (Except.ok tx, s₁) =>
    match fn tx s₁ with
    | (some err, s₂) =>
      match db.Rollback tx s₂ with
      | (some rollbackErr, s₃) =>
        (some (GoError.wrap2 "transaction error: %w, rollback error: %w" err rollbackErr), s₃)
      | (none, s₃) => (some err, s₃)
    | (none, s₂) =>
      match db.Commit tx s₂ with
      | (some err, s₃) => (some (GoError.wrap "failed to commit transaction" err), s₃)
      | (none, s₃) => (none, s₃)

/-- The steps of a transaction that a scripted store records. -/
inductive TxEvent where
  | begin
  | callback
  | rollback
  | commit
  deriving DecidableEq

/-- A transaction store whose state is the list of steps attempted so far, and whose begin,
rollback and commit have the given outcomes (`none` is success). -/
def scripted (beginErr rollbackErr commitErr : Option GoError) : TxDB (List TxEvent) Unit where
  BeginTxx := fun log =>
    match beginErr with
    | some err => (Except.error err, log ++ [TxEvent.begin])
    | none => (Except.ok (), log ++ [TxEvent.begin])
  Rollback := fun _ log => (rollbackErr, log ++ [TxEvent.rollback])
  Commit := fun _ log => (commitErr, log ++ [TxEvent.commit])

/-- A callback with the given outcome that records its call. -/
def scriptedFn (fnErr : Option GoError) : Unit → List TxEvent → Option GoError × List TxEvent :=
  fun _ log => (fnErr, log ++ [TxEvent.callback])

/-- The fields that `buildInsertData` emits: exported, with a column name other than empty and
`-`, and not holding a nil pointer. -/
def insertable (entity : Entity) : List StructField :=
  entity.filter fun f => f.IsExported && (f.db != "" && f.db != "-") && !f.value.isNilPtr

/-- A store that records every call in its state and answers `ExecContext` with the given
number of affected rows (every other call with `sql.ErrNoRows`). -/
def recorderRows (rowsAffected : Int) : DB (List (String × List Value)) where
  GetContext := fun q a log => (Except.error GoError.ErrNoRows, log ++ [(q, a)])
  SelectContext := fun q a log => (Except.error GoError.ErrNoRows, log ++ [(q, a)])
  ExecContext := fun q a log => (Except.ok (Except.ok rowsAffected), log ++ [(q, a)])
  QueryRowScan := fun q a log => (Except.error GoError.ErrNoRows, log ++ [(q, a)])

/-- An operator text that `buildCondition` writes into the condition as it is: none of the
keywords `OR`, `RAW`, `IN`, `NOT IN` in any letter case, and no `$` in it. The comparison
operators and `LIKE`, `ILIKE` are of this kind. -/
def plainOperator (op : String) : Bool :=
  noDollar op && ToUpper op != "OR" && ToUpper op != "RAW" && ToUpper op != "IN" &&
    ToUpper op != "NOT IN"

/-- The shapes of filters that callers build with the constructors of `helpers.go`. -/
inductive FilterShape where
  | comparison (field operator : String) (value : Value)
  | inList (field : String) (negated : Bool) (values : List Value)
  | raw (sql : String)
  | orGroup (conditions : List Filter)

/-- The filter of a shape. -/
def FilterShape.toFilter : FilterShape → Filter
  | FilterShape.comparison field operator value => NewFilter field operator value
  | FilterShape.inList field false values => NewFilter field "IN" (Value.slice values)
  | FilterShape.inList field true values => NewFilter field "NOT IN" (Value.slice values)
  | FilterShape.raw sql => NewRawFilter sql
  | FilterShape.orGroup conditions => NewORFilter conditions

/-- Side conditions of a shape: a comparison has a plain operator, no `$` in its field and a
value that is neither nil nor a `[]any`; an `IN`/`NOT IN` filter has no `$` in its field; a
RAW fragment has no `$`; the sub-conditions of an OR group have plain operators and no `$` in
their fields. -/
def FilterShape.ok : FilterShape → Bool
  | FilterShape.comparison field operator value =>
    plainOperator operator && noDollar field && singleValue value
  | FilterShape.inList field _ _ => noDollar field
  | FilterShape.raw sql => noDollar sql
  | FilterShape.orGroup conditions =>
    conditions.all fun c => plainOperator c.Operator && noDollar c.Field

/-- The values bound to the placeholders of a shape, in the order of the placeholders. -/
def FilterShape.bound : FilterShape → List Value
  | FilterShape.comparison _ _ value => [value]
  | FilterShape.inList _ _ values => values
  | FilterShape.raw _ => []
  | FilterShape.orGroup conditions => conditions.map fun c => c.Value

/-- A store that records every call in its state, answers the count query with the given
number and every other call with success (an empty row, no rows, one row affected). -/
def recorderCount (count : Int) : DB (List (String × List Value)) where
  GetContext := fun q a log => (Except.ok [], log ++ [(q, a)])
  SelectContext := fun q a log => (Except.ok [], log ++ [(q, a)])
  ExecContext := fun q a log => (Except.ok (Except.ok 1), log ++ [(q, a)])
  QueryRowScan := fun q a log => (Except.ok count, log ++ [(q, a)])

/-! ## Lemmas on the loops of the filter compiler -/

theorem toUpper_OR : ToUpper "OR" = "OR" := by decide

theorem toUpper_RAW : ToUpper "RAW" = "RAW" := by decide

theorem toUpper_IN : ToUpper "IN" = "IN" := by decide

theorem toUpper_NOT_IN : ToUpper "NOT IN" = "NOT IN" := by decide

theorem inPlaceholders_eq (values : List Value) (argIndex i : Nat) :
    inPlaceholders values argIndex i
      = (List.range' i values.length).map fun j => "$" ++ itoa (argIndex + j) := by
  induction values generalizing i with
  | nil => rfl
  | cons v rest ih => simp [inPlaceholders, ih, List.range'_succ]

theorem orLoop_acc (conditions : List GoMap) (orParts : List String) (orArgs : List Value)
    (k : Nat) :
    orLoop conditions orParts orArgs k
      = (orParts ++ (orLoop conditions [] [] k).1, orArgs ++ (orLoop conditions [] [] k).2) := by
  induction conditions generalizing orParts orArgs k with
  | nil => simp [orLoop]
  | cons c rest ih =>
    simp only [orLoop]
    rw [ih, ih ([] ++ _) ([] ++ _)]
    simp

/-- The sub-condition maps that `NewORFilter` stores for a list of filters. -/
theorem orLoop_NewORFilter (cs : List Filter) (k : Nat) :
    orLoop (cs.map fun condition =>
        [("field", Value.str condition.Field), ("operator", Value.str condition.Operator),
          ("value", condition.Value)]) [] [] k
      = ((cs.enumFrom k).map (fun p =>
            QuoteIdentifier p.2.Field ++ " " ++ p.2.Operator ++ " $" ++ itoa p.1),
          cs.map fun c => c.Value) := by
  induction cs generalizing k with
  | nil => rfl
  | cons c rest ih =>
    simp only [List.map_cons, orLoop, List.enumFrom_cons]
    rw [orLoop_acc, ih]
    simp [mapIndex, Value.asString]

theorem buildCondition_NewORFilter (cs : List Filter) (k : Nat) :
    buildCondition (NewORFilter cs) k
      = ("(" ++ Join ((cs.enumFrom k).map fun p =>
            QuoteIdentifier p.2.Field ++ " " ++ p.2.Operator ++ " $" ++ itoa p.1) " OR " ++ ")",
          Value.slice (cs.map fun c => c.Value)) := by
  simp only [buildCondition, NewORFilter, toUpper_OR, if_true, mapIndex, orLoop_NewORFilter]

theorem buildCondition_NewRawFilter (sql : String) (k : Nat) :
    buildCondition (NewRawFilter sql) k = (sql, Value.nil) := by
  have h : ¬ ("RAW" = "OR") := by decide
  simp only [buildCondition, NewRawFilter, toUpper_RAW, if_true, if_neg h]

theorem whereLoop_acc (fs : List Filter) (conditions : List String) (args : List Value)
    (k : Nat) :
    whereLoop fs conditions args k
      = (conditions ++ (whereLoop fs [] [] k).1, args ++ (whereLoop fs [] [] k).2.1,
          (whereLoop fs [] [] k).2.2) := by
  induction fs generalizing conditions args k with
  | nil => simp [whereLoop]
  | cons f rest ih =>
    simp only [whereLoop]
    cases h : (buildCondition f k).2 <;>
      (simp only []; rw [ih, ih ([] ++ _)]; simp)

theorem whereLoop_eq (fs : List Filter) (k : Nat) :
    whereLoop fs [] [] k = (compileAll fs k, argsAll fs k, k + (argsAll fs k).length) := by
  induction fs generalizing k with
  | nil => simp [whereLoop, compileAll, argsAll]
  | cons f rest ih =>
    simp only [whereLoop, compileAll, argsAll]
    cases h : (buildCondition f k).2 <;>
      (simp only []; rw [whereLoop_acc, ih]; simp [arity, argsOf, Nat.add_assoc, Nat.add_comm])

theorem compileAll_append (pre post : List Filter) (k : Nat) :
    compileAll (pre ++ post) k
      = compileAll pre k ++ compileAll post (k + (argsAll pre k).length) := by
  induction pre generalizing k with
  | nil => simp [compileAll, argsAll]
  | cons f rest ih =>
    have h : (argsOf (buildCondition f k).2).length = arity (buildCondition f k).2 := by
      cases (buildCondition f k).2 <;> rfl
    simp [compileAll, argsAll, ih, h, Nat.add_assoc]

theorem argsAll_append (pre post : List Filter) (k : Nat) :
    argsAll (pre ++ post) k = argsAll pre k ++ argsAll post (k + (argsAll pre k).length) := by
  induction pre generalizing k with
  | nil => simp [argsAll]
  | cons f rest ih =>
    have h : (argsOf (buildCondition f k).2).length = arity (buildCondition f k).2 := by
      cases (buildCondition f k).2 <;> rfl
    simp [argsAll, ih, h, Nat.add_assoc]

theorem compileAll_length (fs : List Filter) (k : Nat) : (compileAll fs k).length = fs.length := by
  induction fs generalizing k with
  | nil => rfl
  | cons f rest ih => simp [compileAll, ih]

theorem buildWhereClause_eq (fs : List Filter) (h : fs ≠ []) :
    buildWhereClause fs = (" WHERE " ++ Join (compileAll fs 1) " AND ", argsAll fs 1) := by
  have hl : ¬ (fs.length = 0) := by simpa [List.length_eq_zero] using h
  simp only [buildWhereClause, if_neg hl, whereLoop_eq]

theorem buildCondition_IN (f : String) (vs : List Value) (k : Nat) :
    buildCondition (NewFilter f "IN" (Value.slice vs)) k
      = (QuoteIdentifier f ++ " IN (" ++
          Join ((List.range vs.length).map fun i => "$" ++ itoa (k + i)) ", " ++ ")",
          Value.slice vs) := by
  have h₁ : ¬ ("IN" = "OR") := by decide
  have h₂ : ¬ ("IN" = "RAW") := by decide
  simp only [buildCondition, NewFilter, toUpper_IN, if_true, if_neg h₁, if_neg h₂,
    inPlaceholders_eq, List.range_eq_range']

theorem buildCondition_NOT_IN (f : String) (vs : List Value) (k : Nat) :
    buildCondition (NewFilter f "NOT IN" (Value.slice vs)) k
      = (QuoteIdentifier f ++ " NOT IN (" ++
          Join ((List.range vs.length).map fun i => "$" ++ itoa (k + i)) ", " ++ ")",
          Value.slice vs) := by
  have h₁ : ¬ ("NOT IN" = "OR") := by decide
  have h₂ : ¬ ("NOT IN" = "RAW") := by decide
  have h₃ : ¬ ("NOT IN" = "IN") := by decide
  simp only [buildCondition, NewFilter, toUpper_NOT_IN, if_true, if_neg h₁, if_neg h₂, if_neg h₃,
    inPlaceholders_eq, List.range_eq_range']

theorem buildCondition_malformed_OR (f : Filter) (k : Nat) (hop : ToUpper f.Operator = "OR")
    (hshape : orShape f.Value = none) :
    buildCondition f k = (QuoteIdentifier f.Field ++ " = $" ++ itoa k, f.Value) := by
  simp only [buildCondition, hop, if_true, fallbackCondition]
  cases hv : f.Value with
  | map orData =>
    rw [hv] at hshape
    simp only [orShape] at hshape
    cases hc : mapIndex orData "conditions" with
    | maps conditions => rw [hc] at hshape; simp at hshape
    | _ => simp [hc]
  | _ => rfl

/-! ## The filter compiler: theorems -/

/-- C5: an IN filter on field `f` over the list `vs`, compiled at index `k`, is the quoted
field followed by `IN ($k, $k+1, ..., $k+n-1)` and returns `vs` unchanged as its arguments; a
NOT IN filter gives the same with `NOT IN`; `buildWhereClause` hands the arguments on in the
same order. Field `x` over `[1,2,3]` at index 1 gives `"x" IN ($1, $2, $3)` with arguments
`[1,2,3]`. -/
theorem C5_in_filter_compiles (f : String) (k : Nat) (vs : List Value) :
    buildCondition (NewFilter f "IN" (Value.slice vs)) k
        = (QuoteIdentifier f ++ " IN (" ++
            Join ((List.range vs.length).map fun i => "$" ++ itoa (k + i)) ", " ++ ")",
            Value.slice vs)
      ∧ buildCondition (NewFilter f "NOT IN" (Value.slice vs)) k
        = (QuoteIdentifier f ++ " NOT IN (" ++
            Join ((List.range vs.length).map fun i => "$" ++ itoa (k + i)) ", " ++ ")",
            Value.slice vs)
      ∧ (buildWhereClause [NewFilter f "IN" (Value.slice vs)]).2 = vs
      ∧ (buildWhereClause [NewFilter f "NOT IN" (Value.slice vs)]).2 = vs
      ∧ buildWhereClause [NewFilter "x" "IN" (Value.slice [Value.int 1, Value.int 2, Value.int 3])]
        = (" WHERE \"x\" IN ($1, $2, $3)", [Value.int 1, Value.int 2, Value.int 3]) := by
  refine ⟨buildCondition_IN f vs k, buildCondition_NOT_IN f vs k, ?_, ?_, rfl⟩
  · rw [buildWhereClause_eq _ (by simp)]
    simp [argsAll, buildCondition_IN, argsOf]
  · rw [buildWhereClause_eq _ (by simp)]
    simp [argsAll, buildCondition_NOT_IN, argsOf]

/-- C6: the OR group that `NewORFilter` builds from filters `c1..cn`, compiled at index `k`,
is `(f1 op1 $k OR f2 op2 $k+1 OR ... OR fn opn $k+n-1)` with quoted fields, and its arguments
are `[v1, ..., vn]`. Combining `a = 1` and `b > 5` at index 1 gives `("a" = $1 OR "b" > $2)`
with arguments `[1,5]`. -/
theorem C6_or_filter_compiles (cs : List Filter) (k : Nat) :
    buildCondition (NewORFilter cs) k
        = ("(" ++ Join ((cs.enumFrom k).map fun p =>
              QuoteIdentifier p.2.Field ++ " " ++ p.2.Operator ++ " $" ++ itoa p.1) " OR " ++ ")",
            Value.slice (cs.map fun c => c.Value))
      ∧ (buildWhereClause [NewORFilter cs]).2 = cs.map (fun c => c.Value)
      ∧ buildWhereClause
          [NewORFilter [NewFilter "a" "=" (Value.int 1), NewFilter "b" ">" (Value.int 5)]]
        = (" WHERE (\"a\" = $1 OR \"b\" > $2)", [Value.int 1, Value.int 5]) := by
  refine ⟨buildCondition_NewORFilter cs k, ?_, rfl⟩
  rw [buildWhereClause_eq _ (by simp)]
  simp [argsAll, buildCondition_NewORFilter, argsOf]

/-- The loop of `buildWhereClause` on an OR group built by `NewORFilter`: one condition, one
argument per sub-condition, and the index advanced by the number of sub-conditions. -/
theorem whereLoop_NewORFilter (cs : List Filter) (conditions : List String)
    (args : List Value) (k : Nat) :
    whereLoop [NewORFilter cs] conditions args k
      = (conditions ++ ["(" ++ Join ((cs.enumFrom k).map fun p =>
            QuoteIdentifier p.2.Field ++ " " ++ p.2.Operator ++ " $" ++ itoa p.1) " OR " ++ ")"],
          args ++ cs.map (fun c => c.Value),
          k + cs.length) := by
  simp [whereLoop, buildCondition_NewORFilter]

/-- C3: inside an OR group an IN sub-condition over the two values `[1,2]` is compiled to
`"x" IN $1`, not to `"x" IN ($1, $2)`, while the same filter on its own is compiled to
`"x" IN ($1, $2)`; the group contributes one argument (the whole list), not two, and the
running index goes from 1 to 2, not to 3. -/
theorem C3_or_in_subcondition_single_placeholder :
    (buildCondition
        (NewORFilter [NewFilter "x" "IN" (Value.slice [Value.int 1, Value.int 2])]) 1).1
        = "(\"x\" IN $1)"
      ∧ (buildCondition
        (NewORFilter [NewFilter "x" "IN" (Value.slice [Value.int 1, Value.int 2])]) 1).1
        ≠ "(\"x\" IN ($1, $2))"
      ∧ (buildCondition (NewFilter "x" "IN" (Value.slice [Value.int 1, Value.int 2])) 1).1
        = "\"x\" IN ($1, $2)"
      ∧ (whereLoop [NewORFilter [NewFilter "x" "IN" (Value.slice [Value.int 1, Value.int 2])]]
          [] [] 1).2.1.length = 1
      ∧ (whereLoop [NewORFilter [NewFilter "x" "IN" (Value.slice [Value.int 1, Value.int 2])]]
          [] [] 1).2.2 = 2 := by
  refine ⟨by decide, by decide, by decide, by decide, by decide⟩

/-- C4, as the claim states it, fails: an OR filter whose value is a plain string is compiled
without any error, to an equality condition on its field. -/
theorem C4_malformed_or_counterexample :
    buildWhereClause [{ Field := "custom_or", Operator := "OR", Value := Value.str "oops" }]
      = (" WHERE \"custom_or\" = $1", [Value.str "oops"]) := by
  rfl

/-- C4, amended: for an OR filter whose value lacks the structured shape, `buildCondition`
(which has no error result) returns the fallback condition: the quoted field, ` = ` and the
placeholder of the current index, with the filter's value as its single returned value. -/
theorem C4_malformed_or_falls_back (f : Filter) (k : Nat) (hop : ToUpper f.Operator = "OR")
    (hshape : orShape f.Value = none) :
    buildCondition f k = (QuoteIdentifier f.Field ++ " = $" ++ itoa k, f.Value) :=
  buildCondition_malformed_OR f k hop hshape

theorem C4_malformed_or_falls_back_witness :
    buildCondition { Field := "custom_or", Operator := "OR", Value := Value.str "oops" } 1
      = (QuoteIdentifier "custom_or" ++ " = $" ++ itoa 1, Value.str "oops") :=
  C4_malformed_or_falls_back { Field := "custom_or", Operator := "OR", Value := Value.str "oops" }
    1 (by decide) rfl

/-- C7: a RAW filter compiles to its string, unchanged, and returns no argument; in the loop
of `buildWhereClause` the filters after it are compiled from the same index, and the
arguments and the final index are the same, as when the RAW filter is left out. -/
theorem C7_raw_filter_verbatim (sql : String) (k : Nat) (pre post : List Filter) :
    buildCondition (NewRawFilter sql) k = (sql, Value.nil)
      ∧ whereLoop (pre ++ NewRawFilter sql :: post) [] [] 1
        = (compileAll pre 1 ++ sql :: compileAll post (1 + (argsAll pre 1).length),
            argsAll pre 1 ++ argsAll post (1 + (argsAll pre 1).length),
            1 + (argsAll pre 1 ++ argsAll post (1 + (argsAll pre 1).length)).length)
      ∧ whereLoop (pre ++ post) [] [] 1
        = (compileAll pre 1 ++ compileAll post (1 + (argsAll pre 1).length),
            argsAll pre 1 ++ argsAll post (1 + (argsAll pre 1).length),
            1 + (argsAll pre 1 ++ argsAll post (1 + (argsAll pre 1).length)).length)
      ∧ (buildWhereClause (pre ++ NewRawFilter sql :: post)).2
        = (buildWhereClause (pre ++ post)).2 := by
  have hraw : ∀ n, argsAll (NewRawFilter sql :: post) n = argsAll post n := by
    intro n; simp [argsAll, buildCondition_NewRawFilter, argsOf, arity]
  have hrawc : ∀ n, compileAll (NewRawFilter sql :: post) n = sql :: compileAll post n := by
    intro n; simp [compileAll, buildCondition_NewRawFilter, arity]
  refine ⟨buildCondition_NewRawFilter sql k, ?_, ?_, ?_⟩
  · rw [whereLoop_eq, compileAll_append, argsAll_append, hraw, hrawc]
  · rw [whereLoop_eq, compileAll_append, argsAll_append]
  · rw [buildWhereClause_eq _ (by simp), argsAll_append, hraw]
    by_cases h : pre ++ post = []
    · have hp : pre = [] := (List.append_eq_nil.mp h).1
      have hq : post = [] := (List.append_eq_nil.mp h).2
      subst hp hq
      rfl
    · rw [buildWhereClause_eq _ h, argsAll_append]

/-- C8: for the empty filter list `buildWhereClause` returns the empty string and no
arguments; for a non-empty list it returns ` WHERE ` followed by the compiled conditions of
the filters, one per filter and in list order, joined with ` AND `. -/
theorem C8_where_clause_shape (f : Filter) (rest : List Filter) :
    buildWhereClause [] = ("", [])
      ∧ (buildWhereClause (f :: rest)).1 = " WHERE " ++ Join (compileAll (f :: rest) 1) " AND "
      ∧ (compileAll (f :: rest) 1).length = (f :: rest).length := by
  refine ⟨rfl, ?_, compileAll_length _ _⟩
  rw [buildWhereClause_eq _ (by simp)]

/-! ## Reading placeholders back: lemmas -/

theorem digitChar_isDigit : ∀ d, d < 10 → (digitChar d).isDigit = true := by decide

theorem digitVal_digitChar : ∀ d, d < 10 → digitVal (digitChar d) = d := by decide

theorem itoaAux_acc (fuel n : Nat) (acc : List Char) :
    itoaAux fuel n acc = itoaAux fuel n [] ++ acc := by
  induction fuel generalizing n acc with
  | zero => simp [itoaAux]
  | succ fuel ih =>
    simp only [itoaAux]
    split
    · simp
    · rw [ih, ih (n / 10) [_]]; simp

theorem itoaAux_ne_nil (fuel n : Nat) : itoaAux fuel n [] ≠ [] := by
  cases fuel with
  | zero => simp [itoaAux]
  | succ fuel =>
    simp only [itoaAux]
    split
    · simp
    · rw [itoaAux_acc]; simp

theorem itoaAux_digits (fuel n : Nat) : ∀ c ∈ itoaAux fuel n [], c.isDigit = true := by
  induction fuel generalizing n with
  | zero =>
    intro c hc
    simp only [itoaAux, List.mem_singleton] at hc
    subst hc
    exact digitChar_isDigit _ (Nat.mod_lt _ (by decide))
  | succ fuel ih =>
    intro c hc
    simp only [itoaAux] at hc
    split at hc
    · next hlt =>
      simp only [List.mem_singleton] at hc
      subst hc
      exact digitChar_isDigit _ hlt
    · rw [itoaAux_acc] at hc
      simp only [List.mem_append, List.mem_singleton] at hc
      rcases hc with hc | hc
      · exact ih _ c hc
      · subst hc
        exact digitChar_isDigit _ (Nat.mod_lt _ (by decide))

theorem readDigits_append (n : Nat) (xs ys : List Char) :
    readDigits n (xs ++ ys) = readDigits (readDigits n xs) ys := by
  simp [readDigits, List.foldl_append]

theorem itoaAux_read (fuel n : Nat) (h : n ≤ fuel) : readDigits 0 (itoaAux fuel n []) = n := by
  induction fuel generalizing n with
  | zero =>
    have hn : n = 0 := by omega
    subst hn
    decide
  | succ fuel ih =>
    simp only [itoaAux]
    split
    · next hlt => simp [readDigits, digitVal_digitChar n hlt]
    · next hge =>
      rw [itoaAux_acc, readDigits_append, ih (n / 10) (by omega)]
      simp only [readDigits, List.foldl_cons, List.foldl_nil]
      rw [digitVal_digitChar _ (Nat.mod_lt _ (by decide))]
      omega

theorem scan_idle_skip (a b : List Char) (h : ∀ c ∈ a, c ≠ '$') :
    scanFrom ScanState.idle (a ++ b) = scanFrom ScanState.idle b := by
  induction a with
  | nil => rfl
  | cons c cs ih =>
    have hc : c ≠ '$' := h c (List.mem_cons_self _ _)
    simp only [List.cons_append, scanFrom, if_neg hc, List.append_eq]
    exact ih fun x hx => h x (List.mem_cons_of_mem _ hx)

theorem scan_num_noLead (n : Nat) (b : List Char) (h : noLead b = true) :
    scanFrom (ScanState.num n) b = n :: scanFrom ScanState.idle b := by
  cases b with
  | nil => rfl
  | cons c cs =>
    have hc : ¬ (c.isDigit = true) := by simpa [noLead] using h
    simp only [scanFrom, if_neg hc]

theorem scan_num_digits (n : Nat) (ds b : List Char) (h : ∀ c ∈ ds, c.isDigit = true) :
    scanFrom (ScanState.num n) (ds ++ b) = scanFrom (ScanState.num (readDigits n ds)) b := by
  induction ds generalizing n with
  | nil => rfl
  | cons c cs ih =>
    have hc : c.isDigit = true := h c (List.mem_cons_self _ _)
    simp only [List.cons_append, scanFrom, if_pos hc, List.append_eq]
    rw [ih _ fun x hx => h x (List.mem_cons_of_mem _ hx)]
    rfl

theorem scan_dollar_digits (ds b : List Char) (hne : ds ≠ [])
    (h : ∀ c ∈ ds, c.isDigit = true) :
    scanFrom ScanState.dollar (ds ++ b) = scanFrom (ScanState.num (readDigits 0 ds)) b := by
  cases ds with
  | nil => exact absurd rfl hne
  | cons c cs =>
    have hc : c.isDigit = true := h c (List.mem_cons_self _ _)
    simp only [List.cons_append, scanFrom, if_pos hc, List.append_eq]
    rw [scan_num_digits _ _ _ fun x hx => h x (List.mem_cons_of_mem _ hx)]
    simp [readDigits]

theorem noLead_append (a b : List Char) (ha : noLead a = true) (hb : noLead b = true) :
    noLead (a ++ b) = true := by
  cases a with
  | nil => simpa using hb
  | cons c cs => simpa [noLead] using ha

/-- A placeholder reads back as its number. -/
theorem frag_placeholder (k : Nat) : Frag ('$' :: (itoa k).data) [k] := by
  intro b hb
  simp only [List.cons_append, scanFrom, if_true, itoa, List.append_eq]
  rw [scan_dollar_digits _ _ (itoaAux_ne_nil k k) (itoaAux_digits k k),
    itoaAux_read k k (Nat.le_refl k), scan_num_noLead _ _ hb]
  rfl

theorem frag_noDollar (a : List Char) (h : ∀ c ∈ a, c ≠ '$') : Frag a [] := by
  intro b _
  simpa using scan_idle_skip a b h

theorem frag_skip (a s : List Char) (ns : List Nat) (h : ∀ c ∈ a, c ≠ '$') (hs : Frag s ns) :
    Frag (a ++ s) ns := by
  intro b hb
  rw [List.append_assoc, scan_idle_skip _ _ h]
  exact hs b hb

theorem frag_append (s₁ s₂ : List Char) (n₁ n₂ : List Nat) (h₁ : Frag s₁ n₁) (h₂ : Frag s₂ n₂)
    (hlead : noLead s₂ = true) : Frag (s₁ ++ s₂) (n₁ ++ n₂) := by
  intro b hb
  rw [List.append_assoc, h₁ _ (noLead_append _ _ hlead hb), h₂ b hb, List.append_assoc]

theorem noDollar_iff (s : String) : noDollar s = true ↔ ∀ c ∈ s.data, c ≠ '$' := by
  simp [noDollar]

theorem mem_doubleQuotes (l : List Char) (c : Char) (h : c ∈ doubleQuotes l) :
    c ∈ l ∨ c = '"' := by
  induction l with
  | nil => simp [doubleQuotes] at h
  | cons d ds ih =>
    simp only [doubleQuotes] at h
    split at h
    · simp only [List.mem_cons] at h
      rcases h with h | h | h
      · exact Or.inr h
      · exact Or.inr h
      · rcases ih h with h | h
        · exact Or.inl (List.mem_cons_of_mem _ h)
        · exact Or.inr h
    · simp only [List.mem_cons] at h
      rcases h with h | h
      · exact Or.inl (h ▸ List.mem_cons_self _ _)
      · rcases ih h with h | h
        · exact Or.inl (List.mem_cons_of_mem _ h)
        · exact Or.inr h

/-- Quoting an identifier adds no `$`. -/
theorem quote_noDollar (f : String) (h : noDollar f = true) :
    ∀ c ∈ (QuoteIdentifier f).data, c ≠ '$' := by
  intro c hc
  simp only [QuoteIdentifier, List.mem_cons, List.mem_append, List.mem_singleton,
    List.not_mem_nil, or_false] at hc
  rcases hc with (hc | hc) | hc
  · subst hc; decide
  · rcases mem_doubleQuotes _ _ hc with hm | hm
    · exact (noDollar_iff f).mp h c ((List.takeWhile_sublist _).subset hm)
    · subst hm; decide
  · subst hc; decide

/-- A comparison `q op $k` holds the one placeholder `k`. -/
theorem frag_comparison (q op : String) (k : Nat) (hq : ∀ c ∈ q.data, c ≠ '$')
    (hop : ∀ c ∈ op.data, c ≠ '$') : Frag (q ++ " " ++ op ++ " $" ++ itoa k).data [k] := by
  have e : (q ++ " " ++ op ++ " $" ++ itoa k).data
      = (q.data ++ ' ' :: op.data ++ [' ']) ++ '$' :: (itoa k).data := by
    simp [String.data_append]
  rw [e]
  refine frag_skip _ _ _ ?_ (frag_placeholder k)
  intro c hc
  simp only [List.mem_append, List.mem_cons, List.mem_singleton, List.not_mem_nil,
    or_false] at hc
  rcases hc with (hc | hc | hc) | hc
  · exact hq c hc
  · subst hc; decide
  · exact hop c hc
  · subst hc; decide

theorem Join_cons (a : String) (rest : List String) (sep : String) :
    Join (a :: rest) sep = a ++ joinTail rest sep := by
  induction rest generalizing a with
  | nil => simp [Join, joinTail]
  | cons b rest ih => simp [Join, joinTail, ih, String.append_assoc]

theorem noLead_joinTail (cs : List String) (sep : String) (h : noLead sep.data = true)
    (hne : sep.data ≠ []) : noLead (joinTail cs sep).data = true := by
  cases cs with
  | nil => rfl
  | cons b rest =>
    simp only [joinTail, String.data_append]
    cases hs : sep.data with
    | nil => exact absurd hs hne
    | cons c cs => rw [hs] at h; simpa [noLead] using h

theorem frag_inTail (vs : List Value) (k i : Nat) :
    Frag (joinTail (inPlaceholders vs k i) ", ").data (List.range' (k + i) vs.length) := by
  induction vs generalizing i with
  | nil => exact frag_noDollar [] (by simp)
  | cons v rest ih =>
    have e : (joinTail (inPlaceholders (v :: rest) k i) ", ").data
        = ([',', ' '] ++ '$' :: (itoa (k + i)).data)
          ++ (joinTail (inPlaceholders rest k (i + 1)) ", ").data := by
      simp [inPlaceholders, joinTail, String.data_append]
    rw [e, List.length_cons, List.range'_succ]
    have h₁ : Frag ([',', ' '] ++ '$' :: (itoa (k + i)).data) [k + i] :=
      frag_skip _ _ _ (by decide) (frag_placeholder _)
    exact frag_append _ _ [k + i] _ h₁ (ih (i + 1))
      (noLead_joinTail _ _ (by decide) (by decide))

theorem frag_inJoin (vs : List Value) (k : Nat) :
    Frag (Join (inPlaceholders vs k 0) ", ").data (List.range' k vs.length) := by
  cases vs with
  | nil => exact frag_noDollar [] (by simp)
  | cons v rest =>
    have e : (Join (inPlaceholders (v :: rest) k 0) ", ").data
        = ('$' :: (itoa k).data) ++ (joinTail (inPlaceholders rest k 1) ", ").data := by
      simp [inPlaceholders, Join_cons, String.data_append]
    rw [e, List.length_cons, List.range'_succ]
    exact frag_append _ _ [k] _ (frag_placeholder k) (frag_inTail rest k 1)
      (noLead_joinTail _ _ (by decide) (by decide))

theorem orLoop_cons (c : GoMap) (rest : List GoMap) (k : Nat) :
    orLoop (c :: rest) [] [] k
      = ((QuoteIdentifier (mapIndex c "field").asString ++ " " ++
            (mapIndex c "operator").asString ++ " $" ++ itoa k)
          :: (orLoop rest [] [] (k + 1)).1,
          mapIndex c "value" :: (orLoop rest [] [] (k + 1)).2) := by
  simp only [orLoop]
  rw [orLoop_acc]
  simp

theorem orLoop_args_length (conds : List GoMap) (k : Nat) :
    (orLoop conds [] [] k).2.length = conds.length := by
  induction conds generalizing k with
  | nil => rfl
  | cons c rest ih => rw [orLoop_cons]; simp [ih]

theorem frag_subcondition (c : GoMap) (k : Nat) (h : subRegular c = true) :
    Frag (QuoteIdentifier (mapIndex c "field").asString ++ " " ++
      (mapIndex c "operator").asString ++ " $" ++ itoa k).data [k] := by
  simp only [subRegular, Bool.and_eq_true] at h
  exact frag_comparison _ _ k (quote_noDollar _ h.1) ((noDollar_iff _).mp h.2)

theorem frag_orTail (conds : List GoMap) (k : Nat) (h : ∀ c ∈ conds, subRegular c = true) :
    Frag (joinTail (orLoop conds [] [] k).1 " OR ").data (List.range' k conds.length) := by
  induction conds generalizing k with
  | nil => exact frag_noDollar [] (by simp)
  | cons c rest ih =>
    rw [orLoop_cons, List.length_cons, List.range'_succ]
    simp only [joinTail, String.data_append]
    have h₁ := frag_skip " OR ".data _ _ (by decide)
      (frag_subcondition c k (h c (List.mem_cons_self _ _)))
    exact frag_append _ _ [k] _ h₁ (ih (k + 1) fun x hx => h x (List.mem_cons_of_mem _ hx))
      (noLead_joinTail _ _ (by decide) (by decide))

theorem frag_orJoin (conds : List GoMap) (k : Nat) (h : ∀ c ∈ conds, subRegular c = true) :
    Frag (Join (orLoop conds [] [] k).1 " OR ").data (List.range' k conds.length) := by
  cases conds with
  | nil => exact frag_noDollar [] (by simp)
  | cons c rest =>
    rw [orLoop_cons, Join_cons, List.length_cons, List.range'_succ]
    simp only [String.data_append]
    exact frag_append _ _ [k] _ (frag_subcondition c k (h c (List.mem_cons_self _ _)))
      (frag_orTail rest (k + 1) fun x hx => h x (List.mem_cons_of_mem _ hx))
      (noLead_joinTail _ _ (by decide) (by decide))

/-- A text wrapped between a prefix without `$` and a closing parenthesis keeps its
placeholders. -/
theorem frag_wrap (pre body : String) (ns : List Nat) (hpre : ∀ c ∈ pre.data, c ≠ '$')
    (hbody : Frag body.data ns) : Frag (pre ++ body ++ ")").data ns := by
  have e : (pre ++ body ++ ")").data = pre.data ++ (body.data ++ [')']) := by
    simp [String.data_append]
  rw [e]
  refine frag_skip _ _ _ hpre ?_
  have := frag_append _ _ ns [] hbody (frag_noDollar [')'] (by decide)) (by decide)
  simpa using this

theorem mem_append_noDollar (a b : List Char) (ha : ∀ c ∈ a, c ≠ '$') (hb : ∀ c ∈ b, c ≠ '$') :
    ∀ c ∈ a ++ b, c ≠ '$' := by
  intro c hc
  rcases List.mem_append.mp hc with h | h
  · exact ha c h
  · exact hb c h

theorem arity_singleValue (v : Value) (h : singleValue v = true) : arity v = 1 := by
  cases v <;> first | rfl | (simp [singleValue] at h)

/-- The equality fallback `q = $k` holds the one placeholder `k`. -/
theorem frag_fallback (fld op : String) (v : Value) (k : Nat)
    (h : (noDollar fld && singleValue v) = true) :
    Frag (fallbackCondition (QuoteIdentifier fld) ⟨fld, op, v⟩ k).1.data
      (List.range' k (arity (fallbackCondition (QuoteIdentifier fld) ⟨fld, op, v⟩ k).2)) := by
  simp only [Bool.and_eq_true] at h
  simp only [fallbackCondition, arity_singleValue v h.2]
  have e : (QuoteIdentifier fld ++ " = $" ++ itoa k).data
      = ((QuoteIdentifier fld).data ++ [' ', '=', ' ']) ++ '$' :: (itoa k).data := by
    simp [String.data_append]
  rw [e]
  exact frag_skip _ _ _ (mem_append_noDollar _ _ (quote_noDollar _ h.1) (by decide))
    (frag_placeholder k)

theorem frag_in_list (fld kw : String) (values : List Value) (k : Nat)
    (h : noDollar fld = true) (hkw : ∀ c ∈ kw.data, c ≠ '$') :
    Frag (QuoteIdentifier fld ++ kw ++ Join (inPlaceholders values k 0) ", " ++ ")").data
      (List.range' k values.length) :=
  frag_wrap (QuoteIdentifier fld ++ kw) _ _ (by
    simp only [String.data_append]
    exact mem_append_noDollar _ _ (quote_noDollar _ h) hkw) (frag_inJoin values k)

/-- The condition compiled from a regular filter at index `k` holds exactly the placeholders
`k, k+1, ...`, as many as the arguments it returns. -/
theorem frag_condition (f : Filter) (k : Nat) (h : regular f = true) :
    Frag (buildCondition f k).1.data (List.range' k (arity (buildCondition f k).2)) := by
  rcases f with ⟨fld, op, v⟩
  simp only [regular] at h
  simp only [buildCondition]
  by_cases h₁ : ToUpper op = "OR"
  · simp only [h₁, if_true] at h ⊢
    cases v with
    | map orData =>
      simp only at h ⊢
      cases hc : mapIndex orData "conditions" with
      | maps conditions =>
        simp only [hc, List.all_eq_true] at h ⊢
        simp only [arity, orLoop_args_length]
        exact frag_wrap "(" _ _ (by decide) (frag_orJoin conditions k h)
      | _ =>
        simp only [hc] at h ⊢
        exact frag_fallback fld op _ k h
    | _ => exact frag_fallback fld op _ k h
  · simp only [if_neg h₁] at h ⊢
    by_cases h₂ : ToUpper op = "RAW"
    · simp only [h₂, if_true] at h ⊢
      cases v with
      | str rawSQL =>
        simp only at h ⊢
        exact frag_noDollar _ ((noDollar_iff _).mp h)
      | _ => exact frag_fallback fld op _ k h
    · simp only [if_neg h₂] at h ⊢
      by_cases h₃ : ToUpper op = "IN"
      · simp only [h₃, true_or, if_true] at h ⊢
        cases v with
        | slice values =>
          simp only at h ⊢
          exact frag_in_list fld " IN (" values k h (by decide)
        | _ => exact frag_fallback fld op _ k h
      · by_cases h₄ : ToUpper op = "NOT IN"
        · simp only [h₄, or_true, if_true] at h
          have hni : ¬ ("NOT IN" = "IN") := by decide
          simp only [h₄, if_neg hni, if_true]
          cases v with
          | slice values =>
            simp only at h ⊢
            exact frag_in_list fld " NOT IN (" values k h (by decide)
          | _ => exact frag_fallback fld op _ k h
        · have h₃₄ : ¬ (ToUpper op = "IN" ∨ ToUpper op = "NOT IN") := by
            intro hh; rcases hh with hh | hh
            · exact h₃ hh
            · exact h₄ hh
          simp only [if_neg h₃₄, Bool.and_eq_true] at h
          simp only [if_neg h₃, if_neg h₄, ite_self]
          rw [arity_singleValue v h.1.2]
          exact frag_comparison _ _ k (quote_noDollar _ h.1.1) ((noDollar_iff _).mp h.2)

theorem argsOf_length (v : Value) : (argsOf v).length = arity v := by
  cases v <;> rfl

theorem range'_add (k a b : Nat) :
    List.range' k (a + b) = List.range' k a ++ List.range' (k + a) b := by
  rw [Nat.add_comm a b, List.range'_append_1]

theorem frag_whereTail (fs : List Filter) (k : Nat) (h : ∀ f ∈ fs, regular f = true) :
    Frag (joinTail (compileAll fs k) " AND ").data (List.range' k (argsAll fs k).length) := by
  induction fs generalizing k with
  | nil => exact frag_noDollar [] (by simp)
  | cons f rest ih =>
    simp only [compileAll, argsAll, joinTail, String.data_append, List.length_append,
      argsOf_length]
    rw [range'_add]
    have h₁ := frag_skip " AND ".data _ _ (by decide)
      (frag_condition f k (h f (List.mem_cons_self _ _)))
    exact frag_append _ _ _ _ h₁
      (ih _ fun x hx => h x (List.mem_cons_of_mem _ hx))
      (noLead_joinTail _ _ (by decide) (by decide))

/-- The WHERE fragment of a list of regular filters holds exactly the placeholders
`1, ..., n` for its `n` arguments. -/
theorem placeholders_buildWhereClause (fs : List Filter) (h : ∀ f ∈ fs, regular f = true) :
    placeholders (buildWhereClause fs).1 = List.range' 1 (buildWhereClause fs).2.length := by
  cases fs with
  | nil => rfl
  | cons f rest =>
    rw [buildWhereClause_eq _ (by simp)]
    simp only [placeholders, compileAll, argsAll, Join_cons, String.data_append,
      List.length_append, argsOf_length]
    rw [range'_add]
    have h₁ := frag_skip " WHERE ".data _ _ (by decide)
      (frag_condition f 1 (h f (List.mem_cons_self _ _)))
    have h₂ := frag_append _ _ _ _ h₁
      (frag_whereTail rest (1 + arity (buildCondition f 1).2)
        fun x hx => h x (List.mem_cons_of_mem _ hx))
      (noLead_joinTail _ _ (by decide) (by decide))
    have h₃ := h₂ [] rfl
    simpa [scanFrom] using h₃

/-! ## Placeholder numbering of the WHERE fragment: theorems -/

/-- C1, as the claim states it, fails: the fragment of a RAW filter is copied verbatim, so a
RAW filter whose text holds `$7` gives a WHERE fragment with the placeholder 7 and an empty
argument list. -/
theorem C1_raw_placeholder_counterexample :
    placeholders (buildWhereClause [NewRawFilter "x = $7"]).1 = [7]
      ∧ (buildWhereClause [NewRawFilter "x = $7"]).2.length = 0
      ∧ (placeholders (buildWhereClause [NewRawFilter "x = $7"]).1).length
          ≠ (buildWhereClause [NewRawFilter "x = $7"]).2.length
      ∧ placeholders (buildWhereClause [NewRawFilter "x = $7"]).1
          ≠ List.range' 1 (buildWhereClause [NewRawFilter "x = $7"]).2.length := by
  refine ⟨by decide, by decide, by decide, by decide⟩

/-- C1, amended: for every list of regular filters (no `$` in the field names, in the
operator texts written into the fragment and in the RAW fragments; a value that is neither nil
nor a `[]any` for every filter compiled to a single-placeholder condition), the number of
placeholders in the fragment of `buildWhereClause` equals the number of returned arguments,
and the placeholder numbers read left to right are exactly `1, 2, ..., len(args)`. -/
theorem C1_placeholders_contiguous (fs : List Filter) (h : ∀ f ∈ fs, regular f = true) :
    (placeholders (buildWhereClause fs).1).length = (buildWhereClause fs).2.length
      ∧ placeholders (buildWhereClause fs).1 = List.range' 1 (buildWhereClause fs).2.length := by
  have hp := placeholders_buildWhereClause fs h
  refine ⟨?_, hp⟩
  rw [hp, List.length_range']

theorem C1_placeholders_contiguous_witness :
    (∀ f ∈ [NewFilter "a" "=" (Value.int 1), NewRawFilter "b IS NULL",
        NewFilter "c" "IN" (Value.slice [Value.int 2, Value.int 3]),
        NewORFilter [NewFilter "d" ">" (Value.int 5), NewFilter "e" "<" Value.nil],
        NewFilter "g" "not in" (Value.int 9)],
        regular f = true)
      ∧ (buildWhereClause [NewFilter "a" "=" (Value.int 1), NewRawFilter "b IS NULL",
          NewFilter "c" "IN" (Value.slice [Value.int 2, Value.int 3]),
          NewORFilter [NewFilter "d" ">" (Value.int 5), NewFilter "e" "<" Value.nil],
          NewFilter "g" "not in" (Value.int 9)]).1
        = " WHERE \"a\" = $1 AND b IS NULL AND \"c\" IN ($2, $3) AND " ++
          "(\"d\" > $4 OR \"e\" < $5) AND \"g\" = $6"
      ∧ placeholders (buildWhereClause [NewFilter "a" "=" (Value.int 1), NewRawFilter "b IS NULL",
          NewFilter "c" "IN" (Value.slice [Value.int 2, Value.int 3]),
          NewORFilter [NewFilter "d" ">" (Value.int 5), NewFilter "e" "<" Value.nil],
          NewFilter "g" "not in" (Value.int 9)]).1
        = [1, 2, 3, 4, 5, 6] :=
  ⟨by decide, by decide,
    (C1_placeholders_contiguous [NewFilter "a" "=" (Value.int 1), NewRawFilter "b IS NULL",
      NewFilter "c" "IN" (Value.slice [Value.int 2, Value.int 3]),
      NewORFilter [NewFilter "d" ">" (Value.int 5), NewFilter "e" "<" Value.nil],
      NewFilter "g" "not in" (Value.int 9)]
      (by decide)).2⟩

/-! ## The entity mapper and the repository methods: lemmas and theorems -/

theorem updateLoop_eq (entity : Entity) (fields : List String) (values : List Value) :
    updateLoop entity fields values
      = (fields ++ ((updatable entity).enumFrom (values.length + 1)).map (fun p =>
            QuoteIdentifier p.2.db ++ " = $" ++ itoa p.1),
          values ++ (updatable entity).map fun f => getFieldValue f.value) := by
  induction entity generalizing fields values with
  | nil => simp [updateLoop, updatable]
  | cons f rest ih =>
    simp only [updateLoop]
    by_cases he : f.IsExported = true
    · by_cases hn : f.db = "" ∨ f.db = "-" ∨ f.db = "id"
      · have hf : (f.db != "" && f.db != "-" && f.db != "id") = false := by
          rcases hn with hn | hn | hn <;> simp [hn]
        simp only [he, hn, if_true, Bool.not_true, Bool.false_eq_true, if_false, ih]
        simp [updatable, List.filter_cons, he, hf]
      · have hf : (f.db != "" && f.db != "-" && f.db != "id") = true := by
          simp only [not_or] at hn
          simp [hn.1, hn.2.1, hn.2.2]
        by_cases hp : f.value.isNilPtr = true
        · simp only [he, hn, hp, if_true, Bool.not_true, Bool.false_eq_true, if_false, ih]
          simp [updatable, List.filter_cons, he, hf, hp]
        · simp only [he, hn, hp, Bool.not_true, Bool.false_eq_true, if_false, ih]
          simp [updatable, List.filter_cons, he, hf, hp, List.enumFrom_cons]
    · simp only [he, Bool.not_false, if_true, ih]
      simp [updatable, List.filter_cons, he]

theorem buildUpdateData_eq (entity : Entity) :
    buildUpdateData entity
      = (((updatable entity).enumFrom 1).map (fun p =>
            QuoteIdentifier p.2.db ++ " = $" ++ itoa p.1),
          (updatable entity).map fun f => getFieldValue f.value) := by
  simp [buildUpdateData, updateLoop_eq]

theorem buildUpdateData_lengths (entity : Entity) :
    (buildUpdateData entity).2.length = (buildUpdateData entity).1.length := by
  simp [buildUpdateData_eq]

theorem Update_of_fields {σ : Type} (db : DB σ) (r : GenericRepository) (id : String)
    (entity : Entity) (s : σ) (h : (buildUpdateData entity).1 ≠ []) :
    (Update db r id entity s).2
      = (db.GetContext
          ("UPDATE " ++ QuoteIdentifier r.tableName ++ " SET " ++
            Join (buildUpdateData entity).1 ", " ++ " WHERE id = $" ++
            itoa ((buildUpdateData entity).1.length + 1) ++ " RETURNING *")
          ((buildUpdateData entity).2 ++ [Value.str id]) s).2 := by
  have hl : ¬ ((buildUpdateData entity).1.length = 0) := by
    simpa [List.length_eq_zero] using h
  simp only [Update, if_neg hl, buildUpdateData_lengths]
  split <;> rename_i heq
  · rw [heq]
  · rw [heq]; split <;> rfl

/-- C9: for an entity with at least one assignment, `Update` issues exactly the statement
`UPDATE <quoted table> SET <assignments> WHERE id = $k RETURNING *` with `k` one more than the
number of assignments, and executes it with the assignment values, in order, followed by the
id. The `i`-th assignment is `<quoted column> = $i` and the `i`-th argument is that field's
value; the argument at position `k` is the id, and there are `k` arguments. -/
theorem C9_update_statement_aligned {σ : Type} (db : DB σ) (r : GenericRepository)
    (id : String) (entity : Entity) (s : σ) (log : List (String × List Value))
    (h : (buildUpdateData entity).1 ≠ []) :
    (Update db r id entity s).2
        = (db.GetContext
            ("UPDATE " ++ QuoteIdentifier r.tableName ++ " SET " ++
              Join (buildUpdateData entity).1 ", " ++ " WHERE id = $" ++
              itoa ((buildUpdateData entity).1.length + 1) ++ " RETURNING *")
            ((buildUpdateData entity).2 ++ [Value.str id]) s).2
      ∧ (Update recorder r id entity log).2
        = log ++ [("UPDATE " ++ QuoteIdentifier r.tableName ++ " SET " ++
              Join (buildUpdateData entity).1 ", " ++ " WHERE id = $" ++
              itoa ((buildUpdateData entity).1.length + 1) ++ " RETURNING *",
            (buildUpdateData entity).2 ++ [Value.str id])]
      ∧ (buildUpdateData entity).1
        = ((updatable entity).enumFrom 1).map (fun p =>
            QuoteIdentifier p.2.db ++ " = $" ++ itoa p.1)
      ∧ (buildUpdateData entity).2 ++ [Value.str id]
        = (updatable entity).map (fun f => getFieldValue f.value) ++ [Value.str id]
      ∧ ((buildUpdateData entity).2 ++ [Value.str id]).length
        = (buildUpdateData entity).1.length + 1
      ∧ ((buildUpdateData entity).2 ++ [Value.str id])[(buildUpdateData entity).1.length]?
        = some (Value.str id)
      ∧ ∀ i (hi : i < (updatable entity).length),
          (buildUpdateData entity).1[i]?
            = some (QuoteIdentifier ((updatable entity)[i]).db ++ " = $" ++ itoa (i + 1))
          ∧ ((buildUpdateData entity).2 ++ [Value.str id])[i]?
            = some (getFieldValue ((updatable entity)[i]).value) := by
  refine ⟨Update_of_fields db r id entity s h, ?_, ?_, ?_, ?_, ?_, ?_⟩
  · rw [Update_of_fields recorder r id entity log h]
    rfl
  · rw [buildUpdateData_eq]
  · rw [buildUpdateData_eq]
  · simp [buildUpdateData_lengths]
  · rw [← buildUpdateData_lengths]
    simp
  · intro i hi
    rw [buildUpdateData_eq]
    constructor
    · simp [List.getElem?_map, List.getElem?_enumFrom, hi, Nat.add_comm]
    · rw [List.getElem?_append_left (by simpa using hi)]
      simp [hi]

theorem C9_update_statement_aligned_witness :
    (buildUpdateData [⟨true, "id", RValue.plain (Value.int 7)⟩,
        ⟨true, "name", RValue.plain (Value.str "bob")⟩,
        ⟨true, "age", RValue.ptr (RValue.plain (Value.int 30))⟩]).1 ≠ []
      ∧ (Update recorder ⟨"users"⟩ "7" [⟨true, "id", RValue.plain (Value.int 7)⟩,
        ⟨true, "name", RValue.plain (Value.str "bob")⟩,
        ⟨true, "age", RValue.ptr (RValue.plain (Value.int 30))⟩] []).2
        = [("UPDATE \"users\" SET \"name\" = $1, \"age\" = $2 WHERE id = $3 RETURNING *",
            [Value.str "bob", Value.int 30, Value.str "7"])] :=
  ⟨by decide,
    (C9_update_statement_aligned recorder ⟨"users"⟩ "7" [⟨true, "id", RValue.plain (Value.int 7)⟩,
        ⟨true, "name", RValue.plain (Value.str "bob")⟩,
        ⟨true, "age", RValue.ptr (RValue.plain (Value.int 30))⟩] [] [] (by decide)).2.1⟩

/-- C10: when the mapper yields no update assignment for the entity (it has no editable
field), `Update` returns the error `no fields to update` and leaves the store as it was, for
every id and every store: no statement is executed, so a store that records its calls has
recorded none. -/
theorem C10_update_without_fields {σ : Type} (db : DB σ) (r : GenericRepository) (id : String)
    (entity : Entity) (s : σ) (log : List (String × List Value))
    (h : (buildUpdateData entity).1 = []) :
    Update db r id entity s = (Except.error (GoError.errorf "no fields to update"), s)
      ∧ (Update recorder r id entity log).2 = log
      ∧ updatable entity = [] := by
  refine ⟨by simp [Update, h], by simp [Update, h], ?_⟩
  rw [buildUpdateData_eq] at h
  simpa using h

theorem C10_update_without_fields_witness :
    (buildUpdateData [⟨true, "id", RValue.plain (Value.int 7)⟩,
        ⟨false, "secret", RValue.plain (Value.str "x")⟩,
        ⟨true, "-", RValue.plain (Value.str "y")⟩,
        ⟨true, "nick", RValue.nilPtr⟩]).1 = []
      ∧ Update recorder ⟨"users"⟩ "7" [⟨true, "id", RValue.plain (Value.int 7)⟩,
        ⟨false, "secret", RValue.plain (Value.str "x")⟩,
        ⟨true, "-", RValue.plain (Value.str "y")⟩,
        ⟨true, "nick", RValue.nilPtr⟩] []
        = (Except.error (GoError.errorf "no fields to update"), []) :=
  ⟨by decide,
    (C10_update_without_fields recorder ⟨"users"⟩ "7" [⟨true, "id", RValue.plain (Value.int 7)⟩,
        ⟨false, "secret", RValue.plain (Value.str "x")⟩,
        ⟨true, "-", RValue.plain (Value.str "y")⟩,
        ⟨true, "nick", RValue.nilPtr⟩] [] [] (by decide)).1⟩

/-- C2: `Upsert` on an entity whose `id` column comes before its `name` column. The statement
sets `"name" = $1`, while the argument list executed with it is the insert list, whose first
element is the id and whose second is the name: the assignment binds the id value. -/
theorem C2_upsert_assignment_misaligned :
    (Upsert recorder ⟨"users"⟩ [⟨true, "id", RValue.plain (Value.int 7)⟩,
        ⟨true, "name", RValue.plain (Value.str "bob")⟩] [] []).2
      = [("INSERT INTO \"users\" (\"id\", \"name\") VALUES ($1, $2) ON CONFLICT (id) " ++
            "DO UPDATE SET \"name\" = $1 RETURNING *",
          [Value.int 7, Value.str "bob"])] := by
  rfl

/-! ## The entity mapper: insert data against update data -/

theorem insertLoop_eq (entity : Entity) (fields : List String) (values : List Value)
    (placeholders : List String) :
    insertLoop entity fields values placeholders
      = (fields ++ (insertable entity).map (fun f => QuoteIdentifier f.db),
          values ++ (insertable entity).map (fun f => getFieldValue f.value),
          placeholders ++ (List.range' (values.length + 1) (insertable entity).length).map
            fun i => "$" ++ itoa i) := by
  induction entity generalizing fields values placeholders with
  | nil => simp [insertLoop, insertable]
  | cons f rest ih =>
    simp only [insertLoop]
    by_cases he : f.IsExported = true
    · by_cases hn : f.db = "" ∨ f.db = "-"
      · have hf : (f.db != "" && f.db != "-") = false := by
          rcases hn with hn | hn <;> simp [hn]
        simp only [he, hn, if_true, Bool.not_true, Bool.false_eq_true, if_false, ih]
        simp [insertable, List.filter_cons, he, hf]
      · have hf : (f.db != "" && f.db != "-") = true := by
          simp only [not_or] at hn
          simp [hn.1, hn.2]
        by_cases hp : f.value.isNilPtr = true
        · simp only [he, hn, hp, if_true, Bool.not_true, Bool.false_eq_true, if_false, ih]
          simp [insertable, List.filter_cons, he, hf, hp]
        · simp only [he, hn, hp, Bool.not_true, Bool.false_eq_true, if_false, ih]
          simp [insertable, List.filter_cons, he, hf, hp, List.range'_succ]
    · simp only [he, Bool.not_false, if_true, ih]
      simp [insertable, List.filter_cons, he]

theorem buildInsertData_eq (entity : Entity) :
    buildInsertData entity
      = ((insertable entity).map (fun f => QuoteIdentifier f.db),
          (insertable entity).map (fun f => getFieldValue f.value),
          (List.range' 1 (insertable entity).length).map fun i => "$" ++ itoa i) := by
  simp [buildInsertData, insertLoop_eq]

theorem updatable_eq_filter (entity : Entity) :
    updatable entity = (insertable entity).filter fun f => f.db != "id" := by
  simp only [updatable, insertable, List.filter_filter]
  congr 1
  funext f
  cases f.IsExported <;> cases f.value.isNilPtr <;> simp [Bool.and_comm, Bool.and_assoc]

/-- C11: `buildInsertData` returns as many columns as values as placeholders; the fields it
emits are, in declaration order, the exported fields whose column name is neither empty nor
`-` and whose value is not a nil pointer (a non-nil pointer, a time, a composite and a plain
value are all emitted); each column is the quoted declared name and the `i`-th placeholder is
`$i`. Each value is the field value as `getFieldValue` hands it on: a plain value as it is, a
`time.Time` as it is, the pointee behind a pointer, and a slice, map or struct as the bytes of
its JSON encoding (nil only when that encoding fails or the pointer is nil). -/
theorem C11_insert_data_shape (entity : Entity) (v : Value) (elem : RValue) (t : Int)
    (jsonData msg : String) :
    buildInsertData entity
        = ((insertable entity).map (fun f => QuoteIdentifier f.db),
            (insertable entity).map (fun f => getFieldValue f.value),
            (List.range' 1 (insertable entity).length).map fun i => "$" ++ itoa i)
      ∧ (buildInsertData entity).1.length = (buildInsertData entity).2.1.length
      ∧ (buildInsertData entity).2.2.length = (buildInsertData entity).2.1.length
      ∧ insertable entity
        = entity.filter (fun f =>
            f.IsExported && (f.db != "" && f.db != "-") && !f.value.isNilPtr)
      ∧ getFieldValue (RValue.plain v) = v
      ∧ getFieldValue (RValue.ptr elem) = getFieldValue elem
      ∧ getFieldValue (RValue.time t) = Value.time t
      ∧ getFieldValue (RValue.composite (Except.ok jsonData)) = Value.bytes jsonData
      ∧ getFieldValue (RValue.composite (Except.error msg)) = Value.nil
      ∧ getFieldValue RValue.nilPtr = Value.nil
      ∧ RValue.nilPtr.isNilPtr = true
      ∧ (RValue.ptr elem).isNilPtr = false
      ∧ (RValue.time t).isNilPtr = false
      ∧ (RValue.composite (Except.ok jsonData)).isNilPtr = false
      ∧ (RValue.composite (Except.error msg)).isNilPtr = false
      ∧ (RValue.plain v).isNilPtr = false
      ∧ buildInsertData [⟨true, "id", RValue.plain (Value.int 7)⟩,
          ⟨false, "secret", RValue.plain (Value.str "x")⟩,
          ⟨true, "-", RValue.plain (Value.str "y")⟩,
          ⟨true, "", RValue.plain (Value.str "z")⟩,
          ⟨true, "nick", RValue.nilPtr⟩,
          ⟨true, "age", RValue.ptr (RValue.plain (Value.int 30))⟩]
        = (["\"id\"", "\"age\""], [Value.int 7, Value.int 30], ["$1", "$2"])
      ∧ buildInsertData [⟨true, "created_at", RValue.time 1700000000⟩,
          ⟨true, "roles", RValue.composite (Except.ok "[\"admin\"]")⟩,
          ⟨true, "seen_at", RValue.ptr (RValue.time 1700000001)⟩,
          ⟨true, "meta", RValue.ptr (RValue.composite (Except.ok "null"))⟩]
        = (["\"created_at\"", "\"roles\"", "\"seen_at\"", "\"meta\""],
            [Value.time 1700000000, Value.bytes "[\"admin\"]", Value.time 1700000001,
              Value.bytes "null"],
            ["$1", "$2", "$3", "$4"]) := by
  refine ⟨buildInsertData_eq entity, ?_, ?_, rfl, rfl, rfl, rfl, rfl, rfl, rfl, rfl, rfl, rfl,
    rfl, rfl, rfl, rfl, rfl⟩
  · simp [buildInsertData_eq]
  · simp [buildInsertData_eq]

/-- C20: the fields that `buildUpdateData` emits are the fields that `buildInsertData` emits
with those of column name `id` removed, in the same order; the `i`-th assignment is the quoted
column of the `i`-th remaining field followed by ` = $i`, the `i`-th update value is the value
that `buildInsertData` emits for that field, and no emitted update field has the column name
`id`. -/
theorem C20_update_is_insert_without_id (entity : Entity) :
    updatable entity = (insertable entity).filter (fun f => f.db != "id")
      ∧ (buildInsertData entity).1 = (insertable entity).map (fun f => QuoteIdentifier f.db)
      ∧ (buildInsertData entity).2.1 = (insertable entity).map (fun f => getFieldValue f.value)
      ∧ (buildUpdateData entity).1
        = (((insertable entity).filter fun f => f.db != "id").enumFrom 1).map (fun p =>
            QuoteIdentifier p.2.db ++ " = $" ++ itoa p.1)
      ∧ (buildUpdateData entity).2
        = ((insertable entity).filter fun f => f.db != "id").map (fun f => getFieldValue f.value)
      ∧ (updatable entity).all (fun f => f.db != "id") = true
      ∧ buildUpdateData [⟨true, "name", RValue.plain (Value.str "bob")⟩,
          ⟨true, "id", RValue.plain (Value.int 7)⟩,
          ⟨true, "age", RValue.ptr (RValue.plain (Value.int 30))⟩]
        = (["\"name\" = $1", "\"age\" = $2"], [Value.str "bob", Value.int 30]) := by
  refine ⟨updatable_eq_filter entity, ?_, ?_, ?_, ?_, ?_, rfl⟩
  · rw [buildInsertData_eq]
  · rw [buildInsertData_eq]
  · rw [buildUpdateData_eq, updatable_eq_filter]
  · rw [buildUpdateData_eq, updatable_eq_filter]
  · rw [updatable_eq_filter]
    simp [List.all_eq_true]

/-- C17, as the claim states it, fails: for an entity whose composite field cannot be
serialized, `buildInsertData` and `buildUpdateData` return their lists without any error, with
nil in the place of that field's value. -/
theorem C17_marshal_failure_counterexample :
    buildInsertData [⟨true, "roles", RValue.composite (Except.error "json: unsupported type")⟩]
        = (["\"roles\""], [Value.nil], ["$1"])
      ∧ buildUpdateData
          [⟨true, "roles", RValue.composite (Except.error "json: unsupported type")⟩]
        = (["\"roles\" = $1"], [Value.nil]) := by
  exact ⟨rfl, rfl⟩

/-- C17, amended: when the serialization of a composite field fails, the mapper (which has no
error result) reports nothing: `getFieldValue` returns nil for the field, also behind a
pointer, and `buildInsertData` and `buildUpdateData` emit the field's column with the value
nil, between the values of the fields before and after it. -/
theorem C17_marshal_failure_yields_nil (pre post : Entity) (column msg : String)
    (hc : column ≠ "" ∧ column ≠ "-" ∧ column ≠ "id") :
    getFieldValue (RValue.composite (Except.error msg)) = Value.nil
      ∧ getFieldValue (RValue.ptr (RValue.composite (Except.error msg))) = Value.nil
      ∧ (buildInsertData
          (pre ++ ⟨true, column, RValue.composite (Except.error msg)⟩ :: post)).2.1
        = (insertable pre).map (fun f => getFieldValue f.value)
          ++ Value.nil :: (insertable post).map (fun f => getFieldValue f.value)
      ∧ (buildUpdateData
          (pre ++ ⟨true, column, RValue.composite (Except.error msg)⟩ :: post)).2
        = (updatable pre).map (fun f => getFieldValue f.value)
          ++ Value.nil :: (updatable post).map (fun f => getFieldValue f.value) := by
  refine ⟨rfl, rfl, ?_, ?_⟩
  · rw [buildInsertData_eq]
    simp [insertable, List.filter_cons, hc.1, hc.2.1, RValue.isNilPtr, getFieldValue]
  · rw [buildUpdateData_eq]
    simp [updatable, List.filter_cons, hc.1, hc.2.1, hc.2.2, RValue.isNilPtr, getFieldValue]

theorem C17_marshal_failure_yields_nil_witness :
    (("roles" : String) ≠ "" ∧ ("roles" : String) ≠ "-" ∧ ("roles" : String) ≠ "id")
      ∧ (buildInsertData
          ([⟨true, "name", RValue.plain (Value.str "bob")⟩]
            ++ ⟨true, "roles", RValue.composite (Except.error "unsupported")⟩
              :: [⟨true, "age", RValue.plain (Value.int 30)⟩])).2.1
        = (insertable [⟨true, "name", RValue.plain (Value.str "bob")⟩]).map
            (fun f => getFieldValue f.value)
          ++ Value.nil :: (insertable [⟨true, "age", RValue.plain (Value.int 30)⟩]).map
            (fun f => getFieldValue f.value) :=
  ⟨by decide,
    (C17_marshal_failure_yields_nil [⟨true, "name", RValue.plain (Value.str "bob")⟩]
      [⟨true, "age", RValue.plain (Value.int 30)⟩] "roles" "unsupported" (by decide)).2.2.1⟩

/-! ## The SELECT builder: theorems -/

theorem fmtInt_pos (x : Int) (h : 0 < x) : fmtInt x = itoa x.toNat := by
  cases x with
  | ofNat n => rfl
  | negSucc n => exact absurd h (by have := Int.negSucc_lt_zero n; omega)

theorem itoa_digits (n : Nat) : (itoa n).data.all (fun c => c.isDigit) = true := by
  simp only [itoa, List.all_eq_true]
  exact itoaAux_digits n n

/-- C13: `buildSelectQuery` returns `SELECT * FROM <quoted table>`, then the fragment of
`buildWhereClause`, then ` ORDER BY <quoted column>` exactly when the order column is not
empty, then ` LIMIT <n>` exactly when the limit is positive, then ` OFFSET <n>` exactly when
the offset is positive, and nothing of these for nil options; its arguments are those of
`buildWhereClause`. -/
theorem C13_select_query_shape (r : GenericRepository) (filters : List Filter)
    (opts : QueryOptions) :
    buildSelectQuery r filters none
        = ("SELECT * FROM " ++ QuoteIdentifier r.tableName ++ (buildWhereClause filters).1,
            (buildWhereClause filters).2)
      ∧ buildSelectQuery r filters (some opts)
        = ("SELECT * FROM " ++ QuoteIdentifier r.tableName ++ (buildWhereClause filters).1
            ++ (if opts.OrderBy ≠ "" then " ORDER BY " ++ QuoteIdentifier opts.OrderBy else "")
            ++ (if opts.Limit > 0 then " LIMIT " ++ fmtInt opts.Limit else "")
            ++ (if opts.Offset > 0 then " OFFSET " ++ fmtInt opts.Offset else ""),
            (buildWhereClause filters).2)
      ∧ buildSelectQuery ⟨"users"⟩ [NewFilter "a" "=" (Value.int 1)] (some ⟨"name", 10, 20⟩)
        = ("SELECT * FROM \"users\" WHERE \"a\" = $1 ORDER BY \"name\" LIMIT 10 OFFSET 20",
            [Value.int 1])
      ∧ buildSelectQuery ⟨"users"⟩ [] (some ⟨"", 0, 0⟩) = ("SELECT * FROM \"users\"", []) := by
  refine ⟨rfl, ?_, rfl, rfl⟩
  simp only [buildSelectQuery]
  by_cases ho : opts.OrderBy = "" <;> by_cases hl : opts.Limit > 0 <;>
    by_cases hf : opts.Offset > 0 <;>
    simp [ho, hl, hf, String.append_assoc]

/-- C14: a limit or offset that is not positive is never written into the statement. The
statement built for any options is the one built for the options with negative limit and
offset replaced by zero; a LIMIT or OFFSET clause is appended only for a positive value, and
its literal is the decimal form of that natural number, which consists of digits only. -/
theorem C14_limit_offset_never_negative (r : GenericRepository) (filters : List Filter)
    (opts : QueryOptions) (n : Nat) :
    buildSelectQuery r filters (some opts)
        = buildSelectQuery r filters
            (some ⟨opts.OrderBy, max opts.Limit 0, max opts.Offset 0⟩)
      ∧ (buildSelectQuery r filters (some opts)).1
        = "SELECT * FROM " ++ QuoteIdentifier r.tableName ++ (buildWhereClause filters).1
            ++ (if opts.OrderBy ≠ "" then " ORDER BY " ++ QuoteIdentifier opts.OrderBy else "")
            ++ (if 0 < opts.Limit then " LIMIT " ++ itoa opts.Limit.toNat else "")
            ++ (if 0 < opts.Offset then " OFFSET " ++ itoa opts.Offset.toNat else "")
      ∧ (itoa n).data.all (fun c => c.isDigit) = true
      ∧ buildSelectQuery ⟨"users"⟩ [] (some ⟨"", -5, -1⟩) = ("SELECT * FROM \"users\"", []) := by
  refine ⟨?_, ?_, itoa_digits n, rfl⟩
  · simp only [buildSelectQuery]
    by_cases hl : opts.Limit > 0 <;> by_cases hf : opts.Offset > 0
    · have h₁ : max opts.Limit 0 = opts.Limit := by omega
      have h₂ : max opts.Offset 0 = opts.Offset := by omega
      simp [h₁, h₂]
    · have h₁ : max opts.Limit 0 = opts.Limit := by omega
      have h₂ : max opts.Offset 0 = 0 := by omega
      simp [h₁, h₂, hf]
    · have h₁ : max opts.Limit 0 = 0 := by omega
      have h₂ : max opts.Offset 0 = opts.Offset := by omega
      simp [h₁, h₂, hl]
    · have h₁ : max opts.Limit 0 = 0 := by omega
      have h₂ : max opts.Offset 0 = 0 := by omega
      simp [h₁, h₂, hl, hf]
  · simp only [buildSelectQuery]
    by_cases ho : opts.OrderBy = "" <;> by_cases hl : opts.Limit > 0 <;>
      by_cases hf : opts.Offset > 0 <;>
      simp [ho, hl, hf, String.append_assoc, fmtInt_pos]

/-! ## The repository methods: theorems -/

/-- C12: `Upsert` with the conflict columns `Email` and `tenant id`. The table and the entity
columns are written as quoted identifiers, the conflict columns are joined as they are. -/
theorem C12_upsert_conflict_columns_verbatim :
    (Upsert recorder ⟨"users"⟩ [⟨true, "Email", RValue.plain (Value.str "a@b.c")⟩]
        ["Email", "tenant id"] []).2
      = [("INSERT INTO \"users\" (\"Email\") VALUES ($1) ON CONFLICT (Email, tenant id) " ++
            "DO UPDATE SET \"Email\" = $1 RETURNING *",
          [Value.str "a@b.c"])] := by
  rfl

/-- C18: when the store executes the statement `DELETE FROM <quoted table> WHERE id = $1`
with the id as its only argument and reports `n` affected rows, `Delete` returns the error
`entity with id <id> not found` exactly when `n` is zero and nil exactly when `n` is at least
one. -/
theorem C18_delete_not_found_iff {σ : Type} (db : DB σ) (r : GenericRepository) (id : String)
    (s s' : σ) (n : Nat)
    (h : db.ExecContext ("DELETE FROM " ++ QuoteIdentifier r.tableName ++ " WHERE id = $1")
      [Value.str id] s = (Except.ok (Except.ok (n : Int)), s')) :
    ((Delete db r id s).1 = some (GoError.errorf ("entity with id " ++ id ++ " not found"))
        ↔ n = 0)
      ∧ ((Delete db r id s).1 = none ↔ 1 ≤ n)
      ∧ (Delete db r id s).2 = s' := by
  simp only [Delete, h]
  by_cases hn : n = 0
  · subst hn
    simp
  · have hz : ¬ ((n : Int) = 0) := by omega
    have hp : 1 ≤ n := by omega
    simp [hz, hn, hp]

theorem C18_delete_not_found_iff_witness :
    (recorderRows 0).ExecContext
        ("DELETE FROM " ++ QuoteIdentifier "users" ++ " WHERE id = $1") [Value.str "7"] []
        = (Except.ok (Except.ok ((0 : Nat) : Int)),
            [("DELETE FROM \"users\" WHERE id = $1", [Value.str "7"])])
      ∧ ((Delete (recorderRows 0) ⟨"users"⟩ "7" []).1
          = some (GoError.errorf ("entity with id " ++ "7" ++ " not found")) ↔ (0 : Nat) = 0) :=
  ⟨rfl,
    (C18_delete_not_found_iff (recorderRows 0) ⟨"users"⟩ "7" []
      [("DELETE FROM \"users\" WHERE id = $1", [Value.str "7"])] 0 rfl).1⟩

/-- C16: `Transaction` over every outcome of begin, callback, rollback and commit. It returns
nil exactly when begin, callback and commit all succeed. When begin fails nothing else is
attempted. When the callback fails, rollback is attempted and commit is not; the callback's
error is returned as it is when rollback succeeds, and an error wrapping both the callback's
error and the rollback error when rollback fails. When the callback succeeds, commit is
attempted and rollback is not, and a commit failure is returned as a wrapping error. -/
theorem C16_transaction_outcomes (beginErr fnErr rollbackErr commitErr : Option GoError)
    (e e' : GoError) :
    ((Transaction (scripted beginErr rollbackErr commitErr) (scriptedFn fnErr) []).1 = none
        ↔ beginErr = none ∧ fnErr = none ∧ commitErr = none)
      ∧ Transaction (scripted (some e) rollbackErr commitErr) (scriptedFn fnErr) []
        = (some (GoError.wrap "failed to begin transaction" e), [TxEvent.begin])
      ∧ Transaction (scripted none none commitErr) (scriptedFn (some e)) []
        = (some e, [TxEvent.begin, TxEvent.callback, TxEvent.rollback])
      ∧ Transaction (scripted none (some e') commitErr) (scriptedFn (some e)) []
        = (some (GoError.wrap2 "transaction error: %w, rollback error: %w" e e'),
            [TxEvent.begin, TxEvent.callback, TxEvent.rollback])
      ∧ Transaction (scripted none rollbackErr none) (scriptedFn none) []
        = (none, [TxEvent.begin, TxEvent.callback, TxEvent.commit])
      ∧ Transaction (scripted none rollbackErr (some e)) (scriptedFn none) []
        = (some (GoError.wrap "failed to commit transaction" e),
            [TxEvent.begin, TxEvent.callback, TxEvent.commit]) := by
  refine ⟨?_, rfl, rfl, rfl, rfl, rfl⟩
  cases beginErr <;> cases fnErr <;> cases rollbackErr <;> cases commitErr <;>
    simp [Transaction, scripted, scriptedFn]

/-! ## Pagination -/

theorem wrapInt_of_fits (x : Int) (h₀ : 0 ≤ x) (h₁ : x < 2 ^ 63) : wrapInt x = x := by
  unfold wrapInt
  have h₂ : (x + 2 ^ 63) % 2 ^ 64 = x + 2 ^ 63 :=
    Int.emod_eq_of_lt (by omega) (by omega)
  rw [h₂]
  omega

theorem FindWithPagination_recorderOk (r : GenericRepository) (filters : List Filter)
    (page pageSize : Int) (orderBy : String) (log : List (String × List Value)) :
    (FindWithPagination recorderOk r filters page pageSize orderBy log).2
      = log ++ [("SELECT COUNT(*) FROM " ++ QuoteIdentifier r.tableName ++
            (buildWhereClause filters).1, (buildWhereClause filters).2),
          buildSelectQuery r filters (some
            { OrderBy := orderBy
              Limit := if pageSize < 1 then 10 else pageSize
              Offset := wrapInt (wrapInt ((if page < 1 then 1 else page) - 1) *
                (if pageSize < 1 then 10 else pageSize)) })] := by
  simp [FindWithPagination, Count, Find, recorderOk]

/-- C15, as the claim states it, fails: for page `2^62 + 1` and page size 2 the product
`(page - 1) * pageSize` is `2^63`, which the 64-bit `int` wraps to `-2^63`; the SELECT is
issued with that offset, hence without an OFFSET clause. -/
theorem C15_offset_overflow_counterexample :
    wrapInt (wrapInt (4611686018427387905 - 1) * 2) = -9223372036854775808
      ∧ wrapInt (wrapInt (4611686018427387905 - 1) * 2) ≠ (max 4611686018427387905 1 - 1) * 2
      ∧ (FindWithPagination recorderOk ⟨"users"⟩ [] 4611686018427387905 2 "" []).2
        = [("SELECT COUNT(*) FROM \"users\"", []), ("SELECT * FROM \"users\" LIMIT 2", [])] := by
  refine ⟨by decide, by decide, rfl⟩

theorem pagination_offset_of_fits (page pageSize : Int)
    (hfit : (max page 1 - 1) * (if 1 ≤ pageSize then pageSize else 10) < 2 ^ 63) :
    (if pageSize < 1 then (10 : Int) else pageSize) = (if 1 ≤ pageSize then pageSize else 10)
      ∧ wrapInt (wrapInt ((if page < 1 then 1 else page) - 1) *
          (if pageSize < 1 then 10 else pageSize))
        = (max page 1 - 1) * (if 1 ≤ pageSize then pageSize else 10) := by
  have hp : (if page < 1 then 1 else page) = max page 1 := by
    split <;> omega
  have hL : (if pageSize < 1 then (10 : Int) else pageSize)
      = (if 1 ≤ pageSize then pageSize else 10) := by
    split <;> split <;> omega
  refine ⟨hL, ?_⟩
  rw [hp, hL]
  have hLpos : 1 ≤ (if 1 ≤ pageSize then pageSize else 10) := by
    split <;> omega
  have hp0 : 0 ≤ max page 1 - 1 := by omega
  have hmul : max page 1 - 1 ≤ (max page 1 - 1) * (if 1 ≤ pageSize then pageSize else 10) :=
    le_mul_of_one_le_right hp0 hLpos
  rw [wrapInt_of_fits (max page 1 - 1) hp0 (by omega),
    wrapInt_of_fits _ (by omega) hfit]

theorem Find_eq {σ : Type} (db : DB σ) (r : GenericRepository) (filters : List Filter)
    (opts : Option QueryOptions) (s : σ) :
    Find db r filters opts s
      = (match db.SelectContext (buildSelectQuery r filters opts).1
            (buildSelectQuery r filters opts).2 s with
          | (Except.error err, s') =>
            (Except.error (GoError.wrap "failed to execute query" err), s')
          | (Except.ok entities, s') => (Except.ok entities, s')) := by
  simp only [Find]

/-- C15, amended: whenever `(max(page, 1) - 1) * L` fits the 64-bit `int`, where `L` is
`pageSize` if that is at least 1 and 10 otherwise, and the COUNT query of
`FindWithPagination` succeeds, with whatever total and on whatever store, the method runs
`Find` with the options limit `L` and offset `(max(page, 1) - 1) * L`, so that its second and
last store call is the SELECT that `buildSelectQuery` builds for these options; the options
depend neither on the filters nor on the total. Page 2 with page size 10 gives `LIMIT 10
OFFSET 10`. -/
theorem C15_pagination_limit_offset {σ : Type} (db : DB σ) (r : GenericRepository)
    (filters : List Filter) (page pageSize : Int) (orderBy : String) (s s₁ : σ)
    (totalCount count : Int) (log : List (String × List Value))
    (hcount : Count db r filters s = (Except.ok totalCount, s₁))
    (hfit : (max page 1 - 1) * (if 1 ≤ pageSize then pageSize else 10) < 2 ^ 63) :
    FindWithPagination db r filters page pageSize orderBy s
        = (match Find db r filters (some
              { OrderBy := orderBy
                Limit := if 1 ≤ pageSize then pageSize else 10
                Offset := (max page 1 - 1) * (if 1 ≤ pageSize then pageSize else 10) }) s₁ with
            | (Except.error err, s₂) =>
              (Except.error (GoError.wrap "failed to get paginated results" err), s₂)
            | (Except.ok entities, s₂) => (Except.ok (entities, totalCount), s₂))
      ∧ (FindWithPagination db r filters page pageSize orderBy s).2
        = (db.SelectContext
            (buildSelectQuery r filters (some
              { OrderBy := orderBy
                Limit := if 1 ≤ pageSize then pageSize else 10
                Offset := (max page 1 - 1) * (if 1 ≤ pageSize then pageSize else 10) })).1
            (buildSelectQuery r filters (some
              { OrderBy := orderBy
                Limit := if 1 ≤ pageSize then pageSize else 10
                Offset := (max page 1 - 1) * (if 1 ≤ pageSize then pageSize else 10) })).2
            s₁).2
      ∧ FindWithPagination (recorderCount count) r filters page pageSize orderBy log
        = (Except.ok ([], count),
            log ++ [("SELECT COUNT(*) FROM " ++ QuoteIdentifier r.tableName ++
                (buildWhereClause filters).1, (buildWhereClause filters).2),
              buildSelectQuery r filters (some
                { OrderBy := orderBy
                  Limit := if 1 ≤ pageSize then pageSize else 10
                  Offset := (max page 1 - 1) * (if 1 ≤ pageSize then pageSize else 10) })])
      ∧ (FindWithPagination (recorderCount 25) ⟨"users"⟩ [NewFilter "a" "=" (Value.int 1)] 2 10
          "" []).2
        = [("SELECT COUNT(*) FROM \"users\" WHERE \"a\" = $1", [Value.int 1]),
            ("SELECT * FROM \"users\" WHERE \"a\" = $1 LIMIT 10 OFFSET 10", [Value.int 1])] := by
  obtain ⟨hL, hO⟩ := pagination_offset_of_fits page pageSize hfit
  have hmain : FindWithPagination db r filters page pageSize orderBy s
      = (match Find db r filters (some
            { OrderBy := orderBy
              Limit := if 1 ≤ pageSize then pageSize else 10
              Offset := (max page 1 - 1) * (if 1 ≤ pageSize then pageSize else 10) }) s₁ with
          | (Except.error err, s₂) =>
            (Except.error (GoError.wrap "failed to get paginated results" err), s₂)
          | (Except.ok entities, s₂) => (Except.ok (entities, totalCount), s₂)) := by
    simp only [FindWithPagination, hcount, hO]
    rw [hL]
  refine ⟨hmain, ?_, ?_, rfl⟩
  · rw [hmain, Find_eq]
    rcases hsel : db.SelectContext
      (buildSelectQuery r filters (some
        { OrderBy := orderBy
          Limit := if 1 ≤ pageSize then pageSize else 10
          Offset := (max page 1 - 1) * (if 1 ≤ pageSize then pageSize else 10) })).1
      (buildSelectQuery r filters (some
        { OrderBy := orderBy
          Limit := if 1 ≤ pageSize then pageSize else 10
          Offset := (max page 1 - 1) * (if 1 ≤ pageSize then pageSize else 10) })).2
      s₁ with ⟨res, s₂⟩
    cases res <;> rfl
  · simp only [FindWithPagination, hO]
    rw [hL]
    simp [Count, Find, recorderCount]

theorem C15_pagination_limit_offset_witness :
    (Count (recorderCount 25) ⟨"users"⟩ [] []
        = (Except.ok 25, [("SELECT COUNT(*) FROM \"users\"", [])]))
      ∧ ((max (3 : Int) 1 - 1) * (if 1 ≤ (0 : Int) then 0 else 10) < 2 ^ 63)
      ∧ FindWithPagination (recorderCount 25) ⟨"users"⟩ [] 3 0 "name"
          [("SELECT COUNT(*) FROM \"users\"", [])]
        = (Except.ok ([], 25),
            [("SELECT COUNT(*) FROM \"users\"", [])]
              ++ [("SELECT COUNT(*) FROM " ++ QuoteIdentifier "users" ++
                  (buildWhereClause []).1, (buildWhereClause []).2),
                buildSelectQuery ⟨"users"⟩ [] (some
                  { OrderBy := "name"
                    Limit := if 1 ≤ (0 : Int) then 0 else 10
                    Offset := (max (3 : Int) 1 - 1) * (if 1 ≤ (0 : Int) then 0 else 10) })])
      ∧ (FindWithPagination (recorderCount 25) ⟨"users"⟩ [] 3 0 "name" []).2
        = [("SELECT COUNT(*) FROM \"users\"", []),
            ("SELECT * FROM \"users\" ORDER BY \"name\" LIMIT 10 OFFSET 20", [])] :=
  ⟨rfl, by decide,
    (C15_pagination_limit_offset (recorderCount 25) ⟨"users"⟩ [] 3 0 "name" []
      [("SELECT COUNT(*) FROM \"users\"", [])] 25 25
      [("SELECT COUNT(*) FROM \"users\"", [])] rfl (by decide)).2.2.1,
    rfl⟩

/-! ## The running index across a filter list -/

theorem plainOperator_iff (op : String) :
    plainOperator op = true ↔
      noDollar op = true ∧ ToUpper op ≠ "OR" ∧ ToUpper op ≠ "RAW" ∧ ToUpper op ≠ "IN"
        ∧ ToUpper op ≠ "NOT IN" := by
  simp [plainOperator, and_assoc]

theorem buildCondition_plain (field op : String) (v : Value) (k : Nat)
    (h : plainOperator op = true) :
    buildCondition (NewFilter field op v) k
      = (QuoteIdentifier field ++ " " ++ op ++ " $" ++ itoa k, v) := by
  obtain ⟨_, h₁, h₂, h₃, h₄⟩ := (plainOperator_iff op).mp h
  simp only [buildCondition, NewFilter, if_neg h₁, if_neg h₂, if_neg h₃, if_neg h₄, ite_self]

theorem regular_plain (field op : String) (v : Value) (h : plainOperator op = true)
    (hf : noDollar field = true) (hv : singleValue v = true) :
    regular (NewFilter field op v) = true := by
  obtain ⟨hd, h₁, h₂, h₃, h₄⟩ := (plainOperator_iff op).mp h
  have h₃₄ : ¬ (ToUpper op = "IN" ∨ ToUpper op = "NOT IN") := by
    intro hh; rcases hh with hh | hh
    · exact h₃ hh
    · exact h₄ hh
  simp only [regular, NewFilter, if_neg h₁, if_neg h₂, if_neg h₃₄, hf, hv, hd, Bool.and_self]

theorem regular_IN (field : String) (vs : List Value) (hf : noDollar field = true) :
    regular (NewFilter field "IN" (Value.slice vs)) = true := by
  have h₁ : ¬ ("IN" = "OR") := by decide
  have h₂ : ¬ ("IN" = "RAW") := by decide
  simp only [regular, NewFilter, toUpper_IN, if_neg h₁, if_neg h₂, true_or, if_true, hf]

theorem regular_NOT_IN (field : String) (vs : List Value) (hf : noDollar field = true) :
    regular (NewFilter field "NOT IN" (Value.slice vs)) = true := by
  have h₁ : ¬ ("NOT IN" = "OR") := by decide
  have h₂ : ¬ ("NOT IN" = "RAW") := by decide
  simp only [regular, NewFilter, toUpper_NOT_IN, if_neg h₁, if_neg h₂, or_true, if_true, hf]

theorem regular_raw (sql : String) (h : noDollar sql = true) :
    regular (NewRawFilter sql) = true := by
  have h₁ : ¬ ("RAW" = "OR") := by decide
  simp only [regular, NewRawFilter, toUpper_RAW, if_neg h₁, if_true, h]

theorem regular_orGroup (cs : List Filter)
    (h : cs.all (fun c => plainOperator c.Operator && noDollar c.Field) = true) :
    regular (NewORFilter cs) = true := by
  simp only [regular, NewORFilter, toUpper_OR, if_true, mapIndex, List.all_eq_true]
  intro m hm
  obtain ⟨c, hc, rfl⟩ := List.mem_map.mp hm
  have hcc := (List.all_eq_true.mp h) c hc
  simp only [Bool.and_eq_true] at hcc
  simp [subRegular, mapIndex, Value.asString, hcc.2, ((plainOperator_iff _).mp hcc.1).1]

theorem shape_regular (sh : FilterShape) (h : sh.ok = true) : regular sh.toFilter = true := by
  cases sh with
  | comparison field op v =>
    simp only [FilterShape.ok, Bool.and_eq_true] at h
    exact regular_plain field op v h.1.1 h.1.2 h.2
  | inList field negated vs =>
    cases negated
    · exact regular_IN field vs h
    · exact regular_NOT_IN field vs h
  | raw sql => exact regular_raw sql h
  | orGroup cs => exact regular_orGroup cs h

theorem argsOf_singleValue (v : Value) (h : singleValue v = true) : argsOf v = [v] := by
  cases v <;> first | rfl | (simp [singleValue] at h)

theorem shape_args (sh : FilterShape) (k : Nat) (h : sh.ok = true) :
    argsOf (buildCondition sh.toFilter k).2 = sh.bound := by
  cases sh with
  | comparison field op v =>
    simp only [FilterShape.ok, Bool.and_eq_true] at h
    simp only [FilterShape.toFilter, buildCondition_plain field op v k h.1.1,
      argsOf_singleValue v h.2, FilterShape.bound]
  | inList field negated vs =>
    cases negated
    · simp only [FilterShape.toFilter, buildCondition_IN, argsOf, FilterShape.bound]
    · simp only [FilterShape.toFilter, buildCondition_NOT_IN, argsOf, FilterShape.bound]
  | raw sql => simp only [FilterShape.toFilter, buildCondition_NewRawFilter, argsOf,
      FilterShape.bound]
  | orGroup cs => simp only [FilterShape.toFilter, buildCondition_NewORFilter, argsOf,
      FilterShape.bound]

theorem argsAll_shapes (shapes : List FilterShape) (k : Nat)
    (h : ∀ sh ∈ shapes, sh.ok = true) :
    argsAll (shapes.map FilterShape.toFilter) k = shapes.flatMap FilterShape.bound := by
  induction shapes generalizing k with
  | nil => rfl
  | cons sh rest ih =>
    simp only [List.map_cons, argsAll, List.flatMap_cons,
      shape_args sh k (h sh (List.mem_cons_self _ _))]
    rw [ih _ fun x hx => h x (List.mem_cons_of_mem _ hx)]

theorem placeholders_condition (f : Filter) (k : Nat) (h : regular f = true) :
    placeholders (buildCondition f k).1 = List.range' k (argsOf (buildCondition f k).2).length := by
  have hf := frag_condition f k h [] rfl
  rw [argsOf_length]
  simpa [placeholders, scanFrom] using hf

/-- C19: for a filter list made of comparison filters with a value that is neither nil nor a
list, IN/NOT IN filters over a list, RAW filters without `$` and OR groups of comparison
sub-conditions, with no `$` in the field names: the placeholders of the WHERE fragment, read
left to right, are `$1, $2, ...`, and the returned arguments are the values of the filters in
the same left-to-right order; every filter is compiled at the index one past the number of
values of the filters before it, its condition holds as many consecutive placeholders from
that index as it has values, and these are the positions of its values in the argument
list. -/
theorem C19_running_index_shared (pre post : List FilterShape) (sh : FilterShape)
    (h : ∀ x ∈ pre ++ sh :: post, x.ok = true) :
    placeholders (buildWhereClause ((pre ++ sh :: post).map FilterShape.toFilter)).1
        = List.range' 1 ((pre ++ sh :: post).flatMap FilterShape.bound).length
      ∧ (buildWhereClause ((pre ++ sh :: post).map FilterShape.toFilter)).2
        = pre.flatMap FilterShape.bound ++ sh.bound ++ post.flatMap FilterShape.bound
      ∧ compileAll ((pre ++ sh :: post).map FilterShape.toFilter) 1
        = compileAll (pre.map FilterShape.toFilter) 1
          ++ (buildCondition sh.toFilter (1 + (pre.flatMap FilterShape.bound).length)).1
          :: compileAll (post.map FilterShape.toFilter)
              (1 + (pre.flatMap FilterShape.bound).length + sh.bound.length)
      ∧ placeholders
          (buildCondition sh.toFilter (1 + (pre.flatMap FilterShape.bound).length)).1
        = List.range' (1 + (pre.flatMap FilterShape.bound).length) sh.bound.length := by
  have hreg : ∀ f ∈ (pre ++ sh :: post).map FilterShape.toFilter, regular f = true := by
    intro f hf
    obtain ⟨x, hx, rfl⟩ := List.mem_map.mp hf
    exact shape_regular x (h x hx)
  have hne : (pre ++ sh :: post).map FilterShape.toFilter ≠ [] := by simp
  have hargs := argsAll_shapes (pre ++ sh :: post) 1 h
  have hpre := argsAll_shapes pre 1 fun x hx => h x (List.mem_append_left _ hx)
  have hsh : sh.ok = true := h sh (by simp)
  refine ⟨?_, ?_, ?_, ?_⟩
  · have hp := placeholders_buildWhereClause _ hreg
    rw [hp, buildWhereClause_eq _ hne, hargs]
  · rw [buildWhereClause_eq _ hne, hargs]
    simp [List.flatMap_append, List.flatMap_cons]
  · rw [List.map_append, compileAll_append, hpre]
    simp only [List.map_cons, compileAll]
    rw [← argsOf_length, shape_args sh _ hsh]
  · rw [placeholders_condition _ _ (shape_regular sh hsh), shape_args sh _ hsh]

theorem C19_running_index_shared_witness :
    (∀ x ∈ [FilterShape.comparison "a" "=" (Value.int 1), FilterShape.raw "b IS NULL"]
        ++ FilterShape.inList "c" false [Value.int 2, Value.int 3]
          :: [FilterShape.orGroup [NewFilter "d" ">" (Value.int 5),
              NewFilter "e" "LIKE" (Value.str "x%")]],
        x.ok = true)
      ∧ buildWhereClause (([FilterShape.comparison "a" "=" (Value.int 1),
          FilterShape.raw "b IS NULL"]
        ++ FilterShape.inList "c" false [Value.int 2, Value.int 3]
          :: [FilterShape.orGroup [NewFilter "d" ">" (Value.int 5),
              NewFilter "e" "LIKE" (Value.str "x%")]]).map FilterShape.toFilter)
        = (" WHERE \"a\" = $1 AND b IS NULL AND \"c\" IN ($2, $3) AND " ++
            "(\"d\" > $4 OR \"e\" LIKE $5)",
          [Value.int 1, Value.int 2, Value.int 3, Value.int 5, Value.str "x%"])
      ∧ placeholders (buildWhereClause (([FilterShape.comparison "a" "=" (Value.int 1),
          FilterShape.raw "b IS NULL"]
        ++ FilterShape.inList "c" false [Value.int 2, Value.int 3]
          :: [FilterShape.orGroup [NewFilter "d" ">" (Value.int 5),
              NewFilter "e" "LIKE" (Value.str "x%")]]).map FilterShape.toFilter)).1
        = [1, 2, 3, 4, 5] :=
  ⟨by decide, rfl,
    (C19_running_index_shared
      [FilterShape.comparison "a" "=" (Value.int 1), FilterShape.raw "b IS NULL"]
      [FilterShape.orGroup [NewFilter "d" ">" (Value.int 5),
        NewFilter "e" "LIKE" (Value.str "x%")]]
      (FilterShape.inList "c" false [Value.int 2, Value.int 3]) (by decide)).1⟩

end Repo
